import Mathlib

/-!
# MarketingTree: a verification development

Shallow embedding of `src/MarketingTree/marketingTree.h` and of the result
classifier of `src/MarketingTree/productLaunch.cpp`.

Modelling decisions.

* `std::shared_ptr<TreeNode>` is an optional address into a heap of nodes
  (`none` is `nullptr`).  `std::make_shared` allocates the next free address,
  a field assignment `n->right_ = c` updates the heap cell.  Pointer identity
  is address equality, so the sharing of the failed leaf is visible.
* The dynamic type of a node (what `typeid`, virtual dispatch and
  `dynamic_pointer_cast` look at) is the constructor of `Derived`; the leaf
  structs carry their `value` member there.
* `double value` holds an amount of money; it is kept in hundredths of a
  dollar (`dollars 75000` is `75'000.00`).
* `std::cout` is the list of items written to it.  A trace line records the
  number printed and the dynamic type whose `typeid` name is printed; the
  spelling of that name is left to the compiler by the language.
* The `while` loop of `get_result` is run with fuel: `none` means that the
  fuel ran out (or that a pointer outside the heap was dereferenced, which a
  `shared_ptr` never allows).
* Every tree is built in a heap of its own, starting at address 0, so the
  addresses of two trees built by two calls of `create_tree` say nothing
  about each other: such trees are compared by the types and values of their
  nodes and by what is written, never by address.
* Where the effect of a walk on the tree matters, the nodes are kept in a
  store with the `use_count` of their owners, and copying, overwriting and
  destroying a `shared_ptr` are the operations `retain` and `release`.
-/

namespace MarketingTree

/-! ## Data model -/

/-- The five flags of `struct Params`. -/
structure Params where
  uses_market_testing : Bool
  has_positive_rating : Bool
  successful_launch : Bool
  modest_launch : Bool
  failed_launch : Bool
deriving DecidableEq, Repr

/-- The constructor `Params()`: every flag is false. -/
def Params.ctor : Params := ⟨false, false, false, false, false⟩

/-- `TreeNodePtr`: a shared pointer is an address, or null. -/
abbrev TreeNodePtr := Option Nat

/-- Amounts of money, in hundredths of a dollar. -/
def dollars (n : Nat) : Nat := n * 100

/-- The ten structs derived from `TreeNode`; the seven leaf structs hold
their `value` member. -/
inductive Derived where
  | FailedLaunchNode (value : Nat)
  | NegativeSuccessfulLaunchNodeTesting (value : Nat)
  | NegativeModestLaunchNodeTesting (value : Nat)
  | PositiveSuccessfulLaunchNodeTesting (value : Nat)
  | PositiveModestLaunchNodeTesting (value : Nat)
  | NoTestingSuccessfulLaunchNode (value : Nat)
  | NoTestingModestLaunchNode (value : Nat)
  | ProductLaunchStrategyNode
  | RatingNode
  | LaunchOutcomeNode
deriving DecidableEq, Repr

/-- The dynamic type of a node, as `typeid` reports it. -/
inductive TypeId where
  | FailedLaunchNode
  | NegativeSuccessfulLaunchNodeTesting
  | NegativeModestLaunchNodeTesting
  | PositiveSuccessfulLaunchNodeTesting
  | PositiveModestLaunchNodeTesting
  | NoTestingSuccessfulLaunchNode
  | NoTestingModestLaunchNode
  | ProductLaunchStrategyNode
  | RatingNode
  | LaunchOutcomeNode
deriving DecidableEq, Repr

/-- A node: the members of the base `struct TreeNode` and the derived part. -/
structure TreeNode where
  left_ : TreeNodePtr
  middle_ : TreeNodePtr
  right_ : TreeNodePtr
  params : Params
  derived : Derived
deriving DecidableEq, Repr

/-- The heap of allocated nodes; the address of a node is its index. -/
abbrev Heap := List TreeNode

/-- The `typeid` of a node. -/
def typeid (n : TreeNode) : TypeId :=
  match n.derived with
  | .FailedLaunchNode _ => .FailedLaunchNode
  | .NegativeSuccessfulLaunchNodeTesting _ => .NegativeSuccessfulLaunchNodeTesting
  | .NegativeModestLaunchNodeTesting _ => .NegativeModestLaunchNodeTesting
  | .PositiveSuccessfulLaunchNodeTesting _ => .PositiveSuccessfulLaunchNodeTesting
  | .PositiveModestLaunchNodeTesting _ => .PositiveModestLaunchNodeTesting
  | .NoTestingSuccessfulLaunchNode _ => .NoTestingSuccessfulLaunchNode
  | .NoTestingModestLaunchNode _ => .NoTestingModestLaunchNode
  | .ProductLaunchStrategyNode => .ProductLaunchStrategyNode
  | .RatingNode => .RatingNode
  | .LaunchOutcomeNode => .LaunchOutcomeNode

/-- The base constructor `TreeNode(p)` with its three defaulted children
(`nullptr`), completed by the derived part. -/
def TreeNode.ctor (p : Params) (d : Derived) : TreeNode :=
  ⟨none, none, none, p, d⟩

/-- The virtual `process()`: the leaves return `nullptr`, the three decision
structs select a child from their own copy of the parameters. -/
def TreeNode.process (n : TreeNode) : TreeNodePtr :=
  match n.derived with
  | .FailedLaunchNode _ => none
  | .NegativeSuccessfulLaunchNodeTesting _ => none
  | .NegativeModestLaunchNodeTesting _ => none
  | .PositiveSuccessfulLaunchNodeTesting _ => none
  | .PositiveModestLaunchNodeTesting _ => none
  | .NoTestingSuccessfulLaunchNode _ => none
  | .NoTestingModestLaunchNode _ => none
  | .ProductLaunchStrategyNode =>
      if n.params.uses_market_testing then n.left_ else n.right_
  | .RatingNode =>
      if n.params.has_positive_rating then n.right_ else n.left_
  | .LaunchOutcomeNode =>
      if n.params.successful_launch then n.right_
      else if n.params.modest_launch then n.middle_
      else n.left_

/-! ## Heap operations -/

/-- `std::make_shared<D>(p)`: allocate a node at the next free address. -/
def make_shared (h : Heap) (p : Params) (d : Derived) : Heap × Nat :=
  (h ++ [TreeNode.ctor p d], h.length)

/-- The assignment `a->left_ = c`. -/
def set_left (h : Heap) (a c : Nat) : Heap :=
  h.modify (fun n => ⟨some c, n.middle_, n.right_, n.params, n.derived⟩) a

/-- The assignment `a->middle_ = c`. -/
def set_middle (h : Heap) (a c : Nat) : Heap :=
  h.modify (fun n => ⟨n.left_, some c, n.right_, n.params, n.derived⟩) a

/-- The assignment `a->right_ = c`. -/
def set_right (h : Heap) (a c : Nat) : Heap :=
  h.modify (fun n => ⟨n.left_, n.middle_, some c, n.params, n.derived⟩) a

/-- Dereference a pointer. -/
def deref (h : Heap) (a : Nat) : Option TreeNode := h.get? a

/-! ## The builder -/

/-- The local variables of `create_tree` at its `return`, with the heap. -/
structure Built where
  heap : Heap
  failed : Nat
  positiveTestingSuccessNode : Nat
  positiveTestingModestNode : Nat
  negativeTestingSuccessNode : Nat
  negativeTestingModestNode : Nat
  noTestingSuccessNode : Nat
  noTestingModestNode : Nat
  noTestingOutcomeNode : Nat
  positiveTestingOutcomeNode : Nat
  negativeTestingOutcomeNode : Nat
  ratingNode : Nat
  root : Nat
deriving DecidableEq, Repr

/-- The body of `create_tree`, statement by statement, starting from an
empty heap; the leaf constructors get their default `val`. -/
def create_tree_body (p : Params) : Built :=
  let h : Heap := []
  -- LEAF NODES
  let (h, failed) := make_shared h p (.FailedLaunchNode (dollars 0))
  let (h, positiveTestingSuccessNode) :=
    make_shared h p (.PositiveSuccessfulLaunchNodeTesting (dollars 150000))
  let (h, positiveTestingModestNode) :=
    make_shared h p (.PositiveModestLaunchNodeTesting (dollars 75000))
  let (h, negativeTestingSuccessNode) :=
    make_shared h p (.NegativeSuccessfulLaunchNodeTesting (dollars 75000))
  let (h, negativeTestingModestNode) :=
    make_shared h p (.NegativeModestLaunchNodeTesting (dollars 50000))
  let (h, noTestingSuccessNode) :=
    make_shared h p (.NoTestingSuccessfulLaunchNode (dollars 100000))
  let (h, noTestingModestNode) :=
    make_shared h p (.NoTestingModestLaunchNode (dollars 50000))
  -- DECISION NODES RIGHT PATH
  let (h, noTestingOutcomeNode) := make_shared h p .LaunchOutcomeNode
  let h := set_right h noTestingOutcomeNode noTestingSuccessNode
  let h := set_middle h noTestingOutcomeNode noTestingModestNode
  let h := set_left h noTestingOutcomeNode failed
  -- DECISION NODES LEFT PATH
  let (h, positiveTestingOutcomeNode) := make_shared h p .LaunchOutcomeNode
  let h := set_right h positiveTestingOutcomeNode positiveTestingSuccessNode
  let h := set_middle h positiveTestingOutcomeNode positiveTestingModestNode
  let h := set_left h positiveTestingOutcomeNode failed
  let (h, negativeTestingOutcomeNode) := make_shared h p .LaunchOutcomeNode
  let h := set_right h negativeTestingOutcomeNode negativeTestingSuccessNode
  let h := set_middle h negativeTestingOutcomeNode negativeTestingModestNode
  let h := set_left h negativeTestingOutcomeNode failed
  let (h, ratingNode) := make_shared h p .RatingNode
  let h := set_right h ratingNode positiveTestingOutcomeNode
  let h := set_left h ratingNode negativeTestingOutcomeNode
  let (h, root) := make_shared h p .ProductLaunchStrategyNode
  let h := set_right h root noTestingOutcomeNode
  let h := set_left h root ratingNode
  ⟨h, failed, positiveTestingSuccessNode, positiveTestingModestNode,
    negativeTestingSuccessNode, negativeTestingModestNode, noTestingSuccessNode,
    noTestingModestNode, noTestingOutcomeNode, positiveTestingOutcomeNode,
    negativeTestingOutcomeNode, ratingNode, root⟩

/-- The function `create_tree`: the heap it leaves and the root it returns. -/
def create_tree (p : Params) : Heap × TreeNodePtr :=
  ((create_tree_body p).heap, some (create_tree_body p).root)

/-! ## The evaluator -/

/-- The macro `TRACK_PATH` of the header. -/
def TRACK_PATH : Bool := true

/-- What `get_result` writes to `std::cout`. -/
inductive Out where
  /-- The line `Displaying travel path...`. -/
  | header
  /-- A trace line: the counter, a dot, the `typeid` name of the node. -/
  | step (nodeCount : Nat) (type : TypeId)
  /-- The closing newline. -/
  | blank
deriving DecidableEq, Repr

/-- The state of `get_result`: its variables `node` and `nodeCount`, the
output written so far, and a history of the addresses `node` has held. -/
structure Walk where
  node : TreeNodePtr
  nodeCount : Nat
  out : List Out
  visited : List Nat
deriving DecidableEq, Repr

/-- The loop `while (node && node->process())` of `get_result`; one unit of
fuel per test of the condition.  `nodeCount` is an `unsigned`. -/
def get_result_loop ( track : Bool) (h : Heap) : Nat → Walk → Option Walk
  | 0, _ => none
  | fuel + 1, w =>
    match w.node with
    | none => some w
    | some a =>
      match deref h a with
      | none => none
      | some n =>
        match n.process with
        | none => some w
        | some next =>
          if track then
            let nodeCount := (w.nodeCount + 1) % 4294967296
            get_result_loop track h fuel
              ⟨some next, nodeCount, w.out ++ [Out.step nodeCount (typeid n)],
                w.visited ++ [next]⟩
          else
            get_result_loop track h fuel
              ⟨some next, w.nodeCount, w.out, w.visited ++ [next]⟩

/-- The function `get_result`, with the value of `TRACK_PATH` as a parameter:
the final state has the returned pointer in `node`. -/
def get_result ( track : Bool) (h : Heap) (fuel : Nat) (node : TreeNodePtr) :
    Option Walk :=
  let out := if track then [Out.header] else []
  match get_result_loop track h fuel ⟨node, 0, out, node.toList⟩ with
  | none => none
  | some w => some ⟨w.node, w.nodeCount, w.out ++ [Out.blank], w.visited⟩

/-- Lines 48 and 49 of `main`: build the tree of `params`, then evaluate it
from its root. -/
def evaluate ( track : Bool) (fuel : Nat) (params : Params) : Option Walk :=
  get_result track (create_tree params).1 fuel (create_tree params).2

/-- The node behind the pointer `get_result` returned, in the heap that
`create_tree` left. -/
def result_node (fuel : Nat) (params : Params) : Option TreeNode :=
  (evaluate TRACK_PATH fuel params).bind
    fun w => w.node.bind (deref (create_tree params).1)

/-- The member `value` of a node, for the seven structs that have one. -/
def TreeNode.value (n : TreeNode) : Option Nat :=
  match n.derived with
  | .FailedLaunchNode v => some v
  | .NegativeSuccessfulLaunchNodeTesting v => some v
  | .NegativeModestLaunchNodeTesting v => some v
  | .PositiveSuccessfulLaunchNodeTesting v => some v
  | .PositiveModestLaunchNodeTesting v => some v
  | .NoTestingSuccessfulLaunchNode v => some v
  | .NoTestingModestLaunchNode v => some v
  | .ProductLaunchStrategyNode => none
  | .RatingNode => none
  | .LaunchOutcomeNode => none

/-- The trace lines among the items written: the number and the type of each. -/
def trace_lines : List Out → List (Nat × TypeId)
  | [] => []
  | .step k t :: rest => (k, t) :: trace_lines rest
  | _ :: rest => trace_lines rest

/-- The assignment `params.has_positive_rating = b`. -/
def Params.set_has_positive_rating (p : Params) (b : Bool) : Params :=
  ⟨p.uses_market_testing, b, p.successful_launch, p.modest_launch, p.failed_launch⟩

/-! ## The result classifier -/

/-- The facet `comma_numpunct`: grouping `"\3"` with separator `,`, applied to
the integer digits taken from the least significant one. -/
def comma_numpunct : List Char → List Char
  | a :: b :: c :: d :: rest => a :: b :: c :: ',' :: comma_numpunct (d :: rest)
  | ds => ds

/-- The insertion `fixed << setprecision(2) << value` into the stream imbued
with `comma_numpunct`: the grouped integer digits, a point, two decimals. -/
def put_fixed2 (value : Nat) : String :=
  String.mk ((comma_numpunct (Nat.toDigits 10 (value / 100)).reverse).reverse ++
    ['.', Nat.digitChar (value % 100 / 10), Nat.digitChar (value % 10)])

/-- The fallback line of the classifier. -/
def unknown_result : String := "Unexpected or Unknown result....\n"

/-- Lines 55 to 70 of `main`: the chain of `dynamic_pointer_cast`s on
`resultNode` and the line each branch writes.  A cast fails on a null pointer
and on a node of another struct. -/
def main_report (h : Heap) (resultNode : TreeNodePtr) : String :=
  match resultNode.bind (deref h) with
  | none => unknown_result
  | some n =>
    match n.derived with
    | .FailedLaunchNode value =>
        "Failed Launch with value: $" ++ put_fixed2 value ++ "\n"
    | .NegativeSuccessfulLaunchNodeTesting value =>
        "Negative Successful Launch with value: $" ++ put_fixed2 value ++ "\n"
    | .NegativeModestLaunchNodeTesting value =>
        "Negative Modest Launch with value: $" ++ put_fixed2 value ++ "\n"
    | .PositiveSuccessfulLaunchNodeTesting value =>
        "Positive Successful Launch with value: $" ++ put_fixed2 value ++ "\n"
    | .PositiveModestLaunchNodeTesting value =>
        "Positive Modest Launch with value: $" ++ put_fixed2 value ++ "\n"
    | .NoTestingSuccessfulLaunchNode value =>
        "No Testing Successful Launch with value: $" ++ put_fixed2 value ++ "\n"
    | .NoTestingModestLaunchNode value =>
        "No Testing Modest Launch with value: $" ++ put_fixed2 value ++ "\n"
    | .ProductLaunchStrategyNode => unknown_result
    | .RatingNode => unknown_result
    | .LaunchOutcomeNode => unknown_result

/-- Lines 48 to 70 of `main` for given `params`: the report line written
after the tree was built and evaluated. -/
def report (fuel : Nat) (params : Params) : Option String :=
  (evaluate TRACK_PATH fuel params).map
    fun w => main_report (create_tree params).1 w.node

/-! ## Paths in the heap -/

/-- The non-null child pointers of a node. -/
def TreeNode.children (n : TreeNode) : List Nat :=
  n.left_.toList ++ n.middle_.toList ++ n.right_.toList

/-- The non-null child pointers of the node at an address. -/
def children_at (h : Heap) (a : Nat) : List Nat :=
  match deref h a with
  | none => []
  | some n => n.children

/-- Whether one of the child pointers of the node at `a` is `b`. -/
def child_of (h : Heap) (a b : Nat) : Bool := decide (b ∈ children_at h a)

/-- Whether a node is of one of the seven leaf structs. -/
def TreeNode.is_leaf (n : TreeNode) : Bool :=
  match n.derived with
  | .ProductLaunchStrategyNode => false
  | .RatingNode => false
  | .LaunchOutcomeNode => false
  | _ => true

/-- The node with another copy of the parameters. -/
def TreeNode.with_params (n : TreeNode) (q : Params) : TreeNode :=
  ⟨n.left_, n.middle_, n.right_, q, n.derived⟩

/-- The level of an address in the heap of `create_tree`: 0 for the seven
leaves, 1 for the outcome decisions, 2 for the rating, 3 for the root. -/
def level (a : Nat) : Nat :=
  if a < 7 then 0 else if a < 10 then 1 else if a < 11 then 2 else 3

/-- The pointers the `process()` of a node can return, over all values of
the flags: the operands of its `return` statements. -/
def TreeNode.selectable (n : TreeNode) : List TreeNodePtr :=
  match n.derived with
  | .ProductLaunchStrategyNode => [n.left_, n.right_]
  | .RatingNode => [n.right_, n.left_]
  | .LaunchOutcomeNode => [n.right_, n.middle_, n.left_]
  | _ => []

/-- The pointers the node at an address can select. -/
def selectable_at (h : Heap) (a : Nat) : List TreeNodePtr :=
  match deref h a with
  | none => []
  | some n => n.selectable

/-! ## The parameter generator -/

/-- The body of `generate_random_params`; `draws k` is the value of the
`k`-th evaluation of `distrib(gen)`, counted from 0, and `i` counts the
evaluations made so far. -/
def generate_random_params (draws : Nat → Nat) : Params :=
  let i := 0
  let uses_market_testing := draws i != 0
  let i := i + 1
  let (has_positive_rating, i) :=
    if uses_market_testing then (draws i != 0, i + 1) else (false, i)
  let successful_launch := draws i != 0
  let i := i + 1
  let modest_launch := draws i != 0
  let i := i + 1
  let failed_launch := draws i != 0
  ⟨uses_market_testing, has_positive_rating, successful_launch, modest_launch,
    failed_launch⟩

/-- The assignment `params.failed_launch = b`. -/
def Params.set_failed_launch (p : Params) (b : Bool) : Params :=
  ⟨p.uses_market_testing, p.has_positive_rating, p.successful_launch, p.modest_launch, b⟩

/-! ## The kinds of the nodes held -/

/-- The dynamic types of the nodes at the addresses a walk held, in order. -/
def walk_types (h : Heap) (w : Walk) : List (Option TypeId) :=
  w.visited.map fun a => (deref h a).map typeid

/-! ## Ownership

The nodes are owned by `std::shared_ptr`s.  The store keeps, next to each
node, the `use_count` of the pointers that own it: copying a pointer raises
it, destroying or overwriting a pointer lowers it, and the owner that lowers
it to zero destroys the node and with it the node's own member pointers. -/

/-- A node with the `use_count` of its owners. -/
structure Cell where
  node : TreeNode
  use_count : Nat
deriving DecidableEq, Repr

/-- The store: one entry per address, `none` once the node was destroyed. -/
abbrev Store := List (Option Cell)

/-- The node at an address of the store, when it is still there. -/
def Store.node_at (s : Store) (a : Nat) : Option TreeNode :=
  match s.get? a with
  | some (some c) => some c.node
  | _ => none

/-- The nodes of the store without their counts. -/
def Store.nodes (s : Store) : List (Option TreeNode) :=
  s.map (Option.map Cell.node)

/-- Copy construction of a `shared_ptr`: its target gets one more owner. -/
def retain (s : Store) (p : TreeNodePtr) : Store :=
  match p with
  | none => s
  | some a => s.modify (Option.map fun c => ⟨c.node, c.use_count + 1⟩) a

/-- Destruction of a `shared_ptr`, with a bound on the depth of the cascade:
its target loses an owner; the last owner destroys the node, and the
destructor `~TreeNode` destroys the members in the reverse order of their
declaration: `right_`, `middle_`, `left_`. -/
def release_depth : Nat → Store → TreeNodePtr → Option Store
  | 0, _, _ => none
  | _ + 1, s, none => some s
  | d + 1, s, some a =>
    match s.get? a with
    | some (some c) =>
      if c.use_count ≤ 1 then
        (release_depth d (s.set a none) c.node.right_).bind fun s =>
          (release_depth d s c.node.middle_).bind fun s =>
            release_depth d s c.node.left_
      else some (s.modify (Option.map fun c => ⟨c.node, c.use_count - 1⟩) a)
    | _ => none

/-- Destruction of a `shared_ptr`.  A cascade destroys a different node at
each level, so it is no deeper than the store is long. -/
def release (s : Store) (p : TreeNodePtr) : Option Store :=
  release_depth (s.length + 1) s p

/-- `std::make_shared<D>(p)` assigned to a local variable, which is the one
owner of the new node. -/
def make_shared_rc (s : Store) (p : Params) (d : Derived) : Store × Nat :=
  (s ++ [some ⟨TreeNode.ctor p d, 1⟩], s.length)

/-- The assignment `a->left_ = c`, the member being null before: the target
of `c` gets one more owner. -/
def assign_left (s : Store) (a c : Nat) : Store :=
  (retain s (some c)).modify
    (Option.map fun x =>
      ⟨⟨some c, x.node.middle_, x.node.right_, x.node.params, x.node.derived⟩, x.use_count⟩) a

/-- The assignment `a->middle_ = c`, the member being null before. -/
def assign_middle (s : Store) (a c : Nat) : Store :=
  (retain s (some c)).modify
    (Option.map fun x =>
      ⟨⟨x.node.left_, some c, x.node.right_, x.node.params, x.node.derived⟩, x.use_count⟩) a

/-- The assignment `a->right_ = c`, the member being null before. -/
def assign_right (s : Store) (a c : Nat) : Store :=
  (retain s (some c)).modify
    (Option.map fun x =>
      ⟨⟨x.node.left_, x.node.middle_, some c, x.node.params, x.node.derived⟩, x.use_count⟩) a

/-- The function `create_tree` with the owners counted, as called in
`TreeNodePtr root = create_tree(params);`: the statements of the body, then
`return root`, which moves the root pointer out to the caller, then the
destruction of the other eleven local pointers, last declared first. -/
def create_tree_rc (p : Params) : Option (Store × TreeNodePtr) :=
  let s : Store := []
  -- LEAF NODES
  let (s, failed) := make_shared_rc s p (.FailedLaunchNode (dollars 0))
  let (s, positiveTestingSuccessNode) :=
    make_shared_rc s p (.PositiveSuccessfulLaunchNodeTesting (dollars 150000))
  let (s, positiveTestingModestNode) :=
    make_shared_rc s p (.PositiveModestLaunchNodeTesting (dollars 75000))
  let (s, negativeTestingSuccessNode) :=
    make_shared_rc s p (.NegativeSuccessfulLaunchNodeTesting (dollars 75000))
  let (s, negativeTestingModestNode) :=
    make_shared_rc s p (.NegativeModestLaunchNodeTesting (dollars 50000))
  let (s, noTestingSuccessNode) :=
    make_shared_rc s p (.NoTestingSuccessfulLaunchNode (dollars 100000))
  let (s, noTestingModestNode) :=
    make_shared_rc s p (.NoTestingModestLaunchNode (dollars 50000))
  -- DECISION NODES RIGHT PATH
  let (s, noTestingOutcomeNode) := make_shared_rc s p .LaunchOutcomeNode
  let s := assign_right s noTestingOutcomeNode noTestingSuccessNode
  let s := assign_middle s noTestingOutcomeNode noTestingModestNode
  let s := assign_left s noTestingOutcomeNode failed
  -- DECISION NODES LEFT PATH
  let (s, positiveTestingOutcomeNode) := make_shared_rc s p .LaunchOutcomeNode
  let s := assign_right s positiveTestingOutcomeNode positiveTestingSuccessNode
  let s := assign_middle s positiveTestingOutcomeNode positiveTestingModestNode
  let s := assign_left s positiveTestingOutcomeNode failed
  let (s, negativeTestingOutcomeNode) := make_shared_rc s p .LaunchOutcomeNode
  let s := assign_right s negativeTestingOutcomeNode negativeTestingSuccessNode
  let s := assign_middle s negativeTestingOutcomeNode negativeTestingModestNode
  let s := assign_left s negativeTestingOutcomeNode failed
  let (s, ratingNode) := make_shared_rc s p .RatingNode
  let s := assign_right s ratingNode positiveTestingOutcomeNode
  let s := assign_left s ratingNode negativeTestingOutcomeNode
  let (s, root) := make_shared_rc s p .ProductLaunchStrategyNode
  let s := assign_right s root noTestingOutcomeNode
  let s := assign_left s root ratingNode
  -- return root; the other locals go out of scope
  (release s (some ratingNode)).bind fun s =>
  (release s (some negativeTestingOutcomeNode)).bind fun s =>
  (release s (some positiveTestingOutcomeNode)).bind fun s =>
  (release s (some noTestingOutcomeNode)).bind fun s =>
  (release s (some noTestingModestNode)).bind fun s =>
  (release s (some noTestingSuccessNode)).bind fun s =>
  (release s (some negativeTestingModestNode)).bind fun s =>
  (release s (some negativeTestingSuccessNode)).bind fun s =>
  (release s (some positiveTestingModestNode)).bind fun s =>
  (release s (some positiveTestingSuccessNode)).bind fun s =>
  (release s (some failed)).map fun s => (s, some root)

/-- The loop of `get_result` with the owners counted.  The condition calls
`node->process()`, which returns a copy of a member pointer, and destroys that
copy after the test; the body calls it again and assigns the copy to `node`,
whose former target loses an owner. -/
def get_result_rc_loop ( track : Bool) : Nat → Store → Walk → Option (Store × Walk)
  | 0, _, _ => none
  | fuel + 1, s, w =>
    match w.node with
    | none => some (s, w)
    | some a =>
      match s.node_at a with
      | none => none
      | some n =>
        match n.process with
        | none => some (s, w)
        | some t =>
          match release (retain s (some t)) (some t) with
          | none => none
          | some s =>
            match s.node_at a with
            | none => none
            | some n' =>
              match n'.process with
              | none => none
              | some next =>
                match release (retain s (some next)) (some a) with
                | none => none
                | some s =>
                  if track then
                    let nodeCount := (w.nodeCount + 1) % 4294967296
                    get_result_rc_loop track fuel s
                      ⟨some next, nodeCount, w.out ++ [Out.step nodeCount (typeid n)],
                        w.visited ++ [next]⟩
                  else
                    get_result_rc_loop track fuel s
                      ⟨some next, w.nodeCount, w.out, w.visited ++ [next]⟩

/-- The body of `get_result` with the owners counted; the parameter `node`
owns its target on entry and is moved into the result by `return node`. -/
def get_result_rc ( track : Bool) (fuel : Nat) (s : Store) (node : TreeNodePtr) :
    Option (Store × Walk) :=
  match get_result_rc_loop track fuel s
      ⟨node, 0, if track then [Out.header] else [], node.toList⟩ with
  | none => none
  | some (s, w) => some (s, ⟨w.node, w.nodeCount, w.out ++ [Out.blank], w.visited⟩)

/-- The call `get_result(root)` of `main`: the parameter is a copy of the
caller's variable, so the root has one more owner during the call, and the
pointer returned is kept by the caller (`resultNode`). -/
def call_get_result ( track : Bool) (fuel : Nat) (s : Store) (root : TreeNodePtr) :
    Option (Store × Walk) :=
  get_result_rc track fuel (retain s root) root

/-- The call `get_result(create_tree(params))` on a temporary: the parameter
is the root pointer itself, the only owner of the root. -/
def call_get_result_temporary ( track : Bool) (fuel : Nat) (s : Store)
    (root : TreeNodePtr) : Option (Store × Walk) :=
  get_result_rc track fuel s root

/-! ## A deep tree -/

/-- A tree that is one long branch: `n` nodes of `RatingNode`, the node at
address `i` with `left_` pointing to address `i + 1` and a negative rating,
and a `FailedLaunchNode` at address `n`. -/
def chain_heap (n : Nat) : Heap :=
  (List.range n).map
      (fun i => ⟨some (i + 1), none, none, Params.ctor, Derived.RatingNode⟩) ++
    [TreeNode.ctor Params.ctor (.FailedLaunchNode (dollars 0))]

/-! ## The invariant of the walk -/

/-- What holds of the state of `get_result` each time the loop condition is
tested with path tracking on: `node` is the last address held; one trace line
was written per advance; `nodeCount` is the number of advances, as an
`unsigned`; line `k` (from 0) carries the number `k + 1`, as an `unsigned`, and
the type of the `k`-th node held; each address held after the first is what
`process()` of the one before returned. -/
def TraceInv (h : Heap) (w : Walk) : Prop :=
  w.node = w.visited.getLast? ∧
  (trace_lines w.out).length = w.visited.length - 1 ∧
  w.nodeCount = (w.visited.length - 1) % 4294967296 ∧
  (∀ k, k < w.visited.length - 1 →
    (trace_lines w.out)[k]? =
      (w.visited[k]?).bind fun x =>
        (deref h x).map fun nd => ((k + 1) % 4294967296, typeid nd)) ∧
  List.Chain' (fun x y => (deref h x).bind TreeNode.process = some y) w.visited

/-! ## Fuel -/

theorem get_result_loop_fuel (track : Bool) (h : Heap) (k : Nat) :
    ∀ (fuel : Nat) (w r : Walk), get_result_loop track h fuel w = some r →
      get_result_loop track h (fuel + k) w = some r := by
  intro fuel
  induction fuel with
  | zero => intro w r hr; simp [get_result_loop] at hr
  | succ f ih =>
    intro w r hr
    rw [Nat.succ_add]
    unfold get_result_loop at hr ⊢
    rcases hn : w.node with _ | a
    · simpa [hn] using hr
    · rcases hd : deref h a with _ | n
      · simp [hn, hd] at hr
      · rcases hp : n.process with _ | next
        · simpa [hn, hd, hp] using hr
        · cases track
          · simp only [hn, hd, hp] at hr ⊢
            exact ih _ _ hr
          · simp only [hn, hd, hp] at hr ⊢
            exact ih _ _ hr

theorem get_result_fuel (track : Bool) (h : Heap) (fuel k : Nat)
    (node : TreeNodePtr) (r : Walk) (hr : get_result track h fuel node = some r) :
    get_result track h (fuel + k) node = some r := by
  simp only [get_result] at hr ⊢
  rcases hl : get_result_loop track h fuel
      ⟨node, 0, if track then [Out.header] else [], node.toList⟩ with _ | w
  · simp [hl] at hr
  · rw [get_result_loop_fuel track h k fuel _ w hl]
    simpa [hl] using hr

theorem evaluate_fuel (track : Bool) (fuel k : Nat) (p : Params) (r : Walk)
    (hr : evaluate track fuel p = some r) :
    evaluate track (fuel + k) p = some r :=
  get_result_fuel track _ fuel k _ r hr


theorem evaluate_four_isSome (track : Bool) (p : Params) :
    (evaluate track 4 p).isSome = true := by
  obtain ⟨umt, hpr, sl, ml, fl⟩ := p
  cases track <;> cases umt <;> cases hpr <;> cases sl <;> cases ml <;> cases fl <;> rfl

theorem evaluate_ge_four (track : Bool) (p : Params) (fuel : Nat) (hfuel : 4 ≤ fuel) :
    evaluate track fuel p = evaluate track 4 p := by
  obtain ⟨k, rfl⟩ := Nat.exists_eq_add_of_le hfuel
  obtain ⟨w, hw⟩ := Option.isSome_iff_exists.mp (evaluate_four_isSome track p)
  rw [hw, evaluate_fuel track 4 k p w hw]

theorem result_node_ge_four (p : Params) (fuel : Nat) (hfuel : 4 ≤ fuel) :
    result_node fuel p = result_node 4 p := by
  simp only [result_node, evaluate_ge_four TRACK_PATH p fuel hfuel]

/-! ## The terminal reached -/

/-- C1: when `successful_launch` is set, whatever `modest_launch` and
`failed_launch` are, `get_result` on the tree of `create_tree` returns (for
every fuel of 4 or more) the successful leaf of the branch the parameters
select: `noTestingSuccessNode` (a `NoTestingSuccessfulLaunchNode` of value
100000) without market testing, `positiveTestingSuccessNode` (a
`PositiveSuccessfulLaunchNodeTesting` of value 150000) with testing and a
positive rating, `negativeTestingSuccessNode` (a
`NegativeSuccessfulLaunchNodeTesting` of value 75000) with testing and a
negative rating; the value is positive in every case. -/
theorem successful_launch_terminal (p : Params) (fuel : Nat)
    (hs : p.successful_launch = true) (hfuel : 4 ≤ fuel) :
    (p.uses_market_testing = false →
      (evaluate TRACK_PATH fuel p).map Walk.node =
        some (some (create_tree_body p).noTestingSuccessNode) ∧
      result_node fuel p =
        some (TreeNode.ctor p (.NoTestingSuccessfulLaunchNode (dollars 100000)))) ∧
    (p.uses_market_testing = true → p.has_positive_rating = true →
      (evaluate TRACK_PATH fuel p).map Walk.node =
        some (some (create_tree_body p).positiveTestingSuccessNode) ∧
      result_node fuel p =
        some (TreeNode.ctor p (.PositiveSuccessfulLaunchNodeTesting (dollars 150000)))) ∧
    (p.uses_market_testing = true → p.has_positive_rating = false →
      (evaluate TRACK_PATH fuel p).map Walk.node =
        some (some (create_tree_body p).negativeTestingSuccessNode) ∧
      result_node fuel p =
        some (TreeNode.ctor p (.NegativeSuccessfulLaunchNodeTesting (dollars 75000)))) ∧
    ∃ v, (result_node fuel p).bind TreeNode.value = some v ∧ 0 < v := by
  rw [evaluate_ge_four TRACK_PATH p fuel hfuel, result_node_ge_four p fuel hfuel]
  obtain ⟨umt, hpr, sl, ml, fl⟩ := p
  simp only at hs
  subst hs
  cases umt <;> cases hpr <;> cases ml <;> cases fl <;>
    exact ⟨by decide, by decide, by decide, _, rfl, by decide⟩

/-- C1 at one input: testing, a positive rating, a successful launch that is
also flagged modest and failed, and fuel 4. -/
theorem successful_launch_terminal_witness :
    (⟨true, true, true, true, true⟩ : Params).successful_launch = true ∧ 4 ≤ 4 ∧
    (evaluate TRACK_PATH 4 ⟨true, true, true, true, true⟩).map Walk.node = some (some 1) ∧
    result_node 4 ⟨true, true, true, true, true⟩ =
      some (TreeNode.ctor ⟨true, true, true, true, true⟩
        (.PositiveSuccessfulLaunchNodeTesting (dollars 150000))) :=
  ⟨rfl, by decide,
    (successful_launch_terminal ⟨true, true, true, true, true⟩ 4 rfl (by decide)).2.1 rfl rfl⟩

/-- C2: when `successful_launch` is clear and `modest_launch` is set,
`get_result` on the tree of `create_tree` returns (for every fuel of 4 or
more) the modest leaf of the branch the parameters select:
`noTestingModestNode` (a `NoTestingModestLaunchNode` of value 50000) without
market testing, `positiveTestingModestNode` (a
`PositiveModestLaunchNodeTesting` of value 75000) with testing and a positive
rating, `negativeTestingModestNode` (a `NegativeModestLaunchNodeTesting` of
value 50000) with testing and a negative rating. -/
theorem modest_launch_terminal (p : Params) (fuel : Nat)
    (hs : p.successful_launch = false) (hm : p.modest_launch = true)
    (hfuel : 4 ≤ fuel) :
    (p.uses_market_testing = false →
      (evaluate TRACK_PATH fuel p).map Walk.node =
        some (some (create_tree_body p).noTestingModestNode) ∧
      result_node fuel p =
        some (TreeNode.ctor p (.NoTestingModestLaunchNode (dollars 50000)))) ∧
    (p.uses_market_testing = true → p.has_positive_rating = true →
      (evaluate TRACK_PATH fuel p).map Walk.node =
        some (some (create_tree_body p).positiveTestingModestNode) ∧
      result_node fuel p =
        some (TreeNode.ctor p (.PositiveModestLaunchNodeTesting (dollars 75000)))) ∧
    (p.uses_market_testing = true → p.has_positive_rating = false →
      (evaluate TRACK_PATH fuel p).map Walk.node =
        some (some (create_tree_body p).negativeTestingModestNode) ∧
      result_node fuel p =
        some (TreeNode.ctor p (.NegativeModestLaunchNodeTesting (dollars 50000)))) := by
  rw [evaluate_ge_four TRACK_PATH p fuel hfuel, result_node_ge_four p fuel hfuel]
  obtain ⟨umt, hpr, sl, ml, fl⟩ := p
  simp only at hs hm
  subst hs hm
  cases umt <;> cases hpr <;> cases fl <;> decide

/-- C2 at one input: testing, a negative rating, a modest launch, fuel 5. -/
theorem modest_launch_terminal_witness :
    (⟨true, false, false, true, false⟩ : Params).successful_launch = false ∧
    (⟨true, false, false, true, false⟩ : Params).modest_launch = true ∧ 4 ≤ 5 ∧
    (evaluate TRACK_PATH 5 ⟨true, false, false, true, false⟩).map Walk.node =
      some (some 4) ∧
    result_node 5 ⟨true, false, false, true, false⟩ =
      some (TreeNode.ctor ⟨true, false, false, true, false⟩
        (.NegativeModestLaunchNodeTesting (dollars 50000))) :=
  ⟨rfl, rfl, by decide,
    (modest_launch_terminal ⟨true, false, false, true, false⟩ 5 rfl rfl
      (by decide)).2.2 rfl rfl⟩

/-- C3: when `successful_launch` and `modest_launch` are both clear,
`get_result` on the tree of `create_tree` returns (for every fuel of 4 or
more) the one node `failed`, a `FailedLaunchNode` of value 0, whatever the
other three flags are; it is reached from `noTestingOutcomeNode` without market
testing, from `positiveTestingOutcomeNode` with testing and a positive rating,
from `negativeTestingOutcomeNode` with testing and a negative rating. -/
theorem failed_launch_terminal (p : Params) (fuel : Nat)
    (hs : p.successful_launch = false) (hm : p.modest_launch = false)
    (hfuel : 4 ≤ fuel) :
    (evaluate TRACK_PATH fuel p).map Walk.node = some (some (create_tree_body p).failed) ∧
    result_node fuel p = some (TreeNode.ctor p (.FailedLaunchNode (dollars 0))) ∧
    (result_node fuel p).bind TreeNode.value = some 0 ∧
    (p.uses_market_testing = false →
      (evaluate TRACK_PATH fuel p).map Walk.visited =
        some [(create_tree_body p).root, (create_tree_body p).noTestingOutcomeNode,
          (create_tree_body p).failed]) ∧
    (p.uses_market_testing = true → p.has_positive_rating = true →
      (evaluate TRACK_PATH fuel p).map Walk.visited =
        some [(create_tree_body p).root, (create_tree_body p).ratingNode,
          (create_tree_body p).positiveTestingOutcomeNode, (create_tree_body p).failed]) ∧
    (p.uses_market_testing = true → p.has_positive_rating = false →
      (evaluate TRACK_PATH fuel p).map Walk.visited =
        some [(create_tree_body p).root, (create_tree_body p).ratingNode,
          (create_tree_body p).negativeTestingOutcomeNode, (create_tree_body p).failed]) := by
  rw [evaluate_ge_four TRACK_PATH p fuel hfuel, result_node_ge_four p fuel hfuel]
  obtain ⟨umt, hpr, sl, ml, fl⟩ := p
  simp only at hs hm
  subst hs hm
  cases umt <;> cases hpr <;> cases fl <;> decide

/-- C3 at one input: testing, a positive rating, neither successful nor
modest, `failed_launch` clear as well, fuel 4. -/
theorem failed_launch_terminal_witness :
    (⟨true, true, false, false, false⟩ : Params).successful_launch = false ∧
    (⟨true, true, false, false, false⟩ : Params).modest_launch = false ∧ 4 ≤ 4 ∧
    (evaluate TRACK_PATH 4 ⟨true, true, false, false, false⟩).map Walk.node =
      some (some 0) ∧
    result_node 4 ⟨true, true, false, false, false⟩ =
      some (TreeNode.ctor ⟨true, true, false, false, false⟩ (.FailedLaunchNode 0)) :=
  ⟨rfl, rfl, by decide,
    (failed_launch_terminal ⟨true, true, false, false, false⟩ 4 rfl rfl (by decide)).1,
    (failed_launch_terminal ⟨true, true, false, false, false⟩ 4 rfl rfl (by decide)).2.1⟩

/-! ## The nodes visited -/

/-- C4: without market testing, the walk of `get_result` over the tree of
`create_tree` (for every fuel of 4 or more) makes exactly 2 hops: it holds
`root` (a `ProductLaunchStrategyNode`), then `noTestingOutcomeNode` (a
`LaunchOutcomeNode`), then a leaf, which it returns; the counter ends at 2 and
two trace lines are written; `ratingNode`, `positiveTestingOutcomeNode` and
`negativeTestingOutcomeNode` are never held. -/
theorem no_testing_walk (p : Params) (fuel : Nat)
    (ht : p.uses_market_testing = false) (hfuel : 4 ≤ fuel) :
    (deref (create_tree_body p).heap (create_tree_body p).root).map typeid =
      some .ProductLaunchStrategyNode ∧
    (deref (create_tree_body p).heap (create_tree_body p).noTestingOutcomeNode).map typeid =
      some .LaunchOutcomeNode ∧
    ∃ w t, evaluate TRACK_PATH fuel p = some w ∧
      w.visited = [(create_tree_body p).root, (create_tree_body p).noTestingOutcomeNode, t] ∧
      w.node = some t ∧
      (deref (create_tree_body p).heap t).map TreeNode.process = some none ∧
      w.nodeCount = 2 ∧
      w.out = [.header, .step 1 .ProductLaunchStrategyNode, .step 2 .LaunchOutcomeNode,
        .blank] ∧
      (create_tree_body p).ratingNode ∉ w.visited ∧
      (create_tree_body p).positiveTestingOutcomeNode ∉ w.visited ∧
      (create_tree_body p).negativeTestingOutcomeNode ∉ w.visited := by
  rw [evaluate_ge_four TRACK_PATH p fuel hfuel]
  obtain ⟨umt, hpr, sl, ml, fl⟩ := p
  simp only at ht
  subst ht
  cases hpr <;> cases sl <;> cases ml <;> cases fl <;>
    exact ⟨by decide, by decide, _, _, rfl, rfl, by decide⟩

/-- C4 at one input: no testing, a rating flagged positive all the same, a
modest launch, fuel 4. -/
theorem no_testing_walk_witness :
    (⟨false, true, false, true, false⟩ : Params).uses_market_testing = false ∧ 4 ≤ 4 ∧
    ∃ w t, evaluate TRACK_PATH 4 ⟨false, true, false, true, false⟩ = some w ∧
      w.visited = [11, 7, t] ∧ w.node = some t ∧ 10 ∉ w.visited :=
  ⟨rfl, by decide,
    match (no_testing_walk ⟨false, true, false, true, false⟩ 4 rfl (by decide)).2.2 with
    | ⟨w, t, hw, hv, hn, _, _, _, hr, _, _⟩ => ⟨w, t, hw, hv, hn, hr⟩⟩

/-- C5: with market testing, the walk of `get_result` over the tree of
`create_tree` (for every fuel of 4 or more) makes exactly 3 hops: it holds
`root`, then `ratingNode` (a `RatingNode`), then the outcome decision of the
rating (`positiveTestingOutcomeNode` when `has_positive_rating` is set,
`negativeTestingOutcomeNode` when it is clear), then a leaf, which it returns;
the counter ends at 3 and three trace lines are written;
`noTestingOutcomeNode` and the outcome decision of the other rating are never
held. -/
theorem testing_walk (p : Params) (fuel : Nat)
    (ht : p.uses_market_testing = true) (hfuel : 4 ≤ fuel) :
    (deref (create_tree_body p).heap (create_tree_body p).root).map typeid =
      some .ProductLaunchStrategyNode ∧
    (deref (create_tree_body p).heap (create_tree_body p).ratingNode).map typeid =
      some .RatingNode ∧
    (deref (create_tree_body p).heap (create_tree_body p).positiveTestingOutcomeNode).map
      typeid = some .LaunchOutcomeNode ∧
    (deref (create_tree_body p).heap (create_tree_body p).negativeTestingOutcomeNode).map
      typeid = some .LaunchOutcomeNode ∧
    ∃ w o t, evaluate TRACK_PATH fuel p = some w ∧
      w.visited = [(create_tree_body p).root, (create_tree_body p).ratingNode, o, t] ∧
      w.node = some t ∧
      (deref (create_tree_body p).heap t).map TreeNode.process = some none ∧
      w.nodeCount = 3 ∧
      w.out = [.header, .step 1 .ProductLaunchStrategyNode, .step 2 .RatingNode,
        .step 3 .LaunchOutcomeNode, .blank] ∧
      (create_tree_body p).noTestingOutcomeNode ∉ w.visited ∧
      (p.has_positive_rating = true →
        o = (create_tree_body p).positiveTestingOutcomeNode ∧
        (create_tree_body p).negativeTestingOutcomeNode ∉ w.visited) ∧
      (p.has_positive_rating = false →
        o = (create_tree_body p).negativeTestingOutcomeNode ∧
        (create_tree_body p).positiveTestingOutcomeNode ∉ w.visited) := by
  rw [evaluate_ge_four TRACK_PATH p fuel hfuel]
  obtain ⟨umt, hpr, sl, ml, fl⟩ := p
  simp only at ht
  subst ht
  cases hpr <;> cases sl <;> cases ml <;> cases fl <;>
    exact ⟨by decide, by decide, by decide, by decide, _, _, _, rfl, rfl, by decide⟩

/-- C5 at one input: testing, a negative rating, a successful launch, fuel 6. -/
theorem testing_walk_witness :
    (⟨true, false, true, false, false⟩ : Params).uses_market_testing = true ∧ 4 ≤ 6 ∧
    ∃ w t, evaluate TRACK_PATH 6 ⟨true, false, true, false, false⟩ = some w ∧
      w.visited = [11, 10, 9, t] ∧ w.node = some t ∧ 8 ∉ w.visited :=
  ⟨rfl, by decide,
    match (testing_walk ⟨true, false, true, false, false⟩ 6 rfl (by decide)).2.2.2.2 with
    | ⟨w, _, t, hw, hv, hn, _, _, _, _, _, hneg⟩ =>
      ⟨w, t, hw, hv.trans (by rw [(hneg rfl).1]; rfl), hn, (hneg rfl).2⟩⟩


/-! ## The report -/

/-- C7: for every parameter set (and every fuel of 4 or more) the report line
written for the node `get_result` returned is not the fallback line; the node
is a leaf, and the line is the label of its struct followed by its value with
two decimals and a comma between groups of three integer digits; for testing,
a positive rating and a successful launch it is
`Positive Successful Launch with value: $150,000.00`. -/
theorem report_never_unknown (p : Params) (fuel : Nat) (hfuel : 4 ≤ fuel) :
    (∃ n r, result_node fuel p = some n ∧ report fuel p = some r ∧
      r ≠ unknown_result ∧ n.is_leaf = true ∧
      (typeid n = .FailedLaunchNode → r = "Failed Launch with value: $0.00\n") ∧
      (typeid n = .NegativeSuccessfulLaunchNodeTesting →
        r = "Negative Successful Launch with value: $75,000.00\n") ∧
      (typeid n = .NegativeModestLaunchNodeTesting →
        r = "Negative Modest Launch with value: $50,000.00\n") ∧
      (typeid n = .PositiveSuccessfulLaunchNodeTesting →
        r = "Positive Successful Launch with value: $150,000.00\n") ∧
      (typeid n = .PositiveModestLaunchNodeTesting →
        r = "Positive Modest Launch with value: $75,000.00\n") ∧
      (typeid n = .NoTestingSuccessfulLaunchNode →
        r = "No Testing Successful Launch with value: $100,000.00\n") ∧
      (typeid n = .NoTestingModestLaunchNode →
        r = "No Testing Modest Launch with value: $50,000.00\n")) ∧
    (p.uses_market_testing = true → p.has_positive_rating = true →
      p.successful_launch = true →
      report fuel p = some "Positive Successful Launch with value: $150,000.00\n") := by
  have hr : report fuel p = report 4 p := by
    simp only [report, evaluate_ge_four TRACK_PATH p fuel hfuel]
  rw [hr, result_node_ge_four p fuel hfuel]
  obtain ⟨umt, hpr, sl, ml, fl⟩ := p
  cases umt <;> cases hpr <;> cases sl <;> cases ml <;> cases fl <;>
    exact ⟨⟨_, _, rfl, rfl, by decide⟩, by decide⟩

/-- C7 at one input: no testing, a modest launch, fuel 4. -/
theorem report_never_unknown_witness :
    4 ≤ 4 ∧ ∃ r, report 4 ⟨false, false, false, true, false⟩ = some r ∧
      r ≠ unknown_result :=
  ⟨by decide,
    match (report_never_unknown ⟨false, false, false, true, false⟩ 4 (by decide)).1 with
    | ⟨_, r, _, hr, hne, _⟩ => ⟨r, hr, hne⟩⟩

/-! ## The trace -/

/-- C8 as stated fails: for testing, a positive rating and a successful launch
the trace has three lines, not four; no line is written for the leaf that is
returned; and the third line is the one written for the negative-testing
outcome decision as well. -/
theorem example_trace_not_four_entries :
    ∃ w w', evaluate TRACK_PATH 4 ⟨true, true, true, false, false⟩ = some w ∧
      evaluate TRACK_PATH 4 ⟨true, false, true, false, false⟩ = some w' ∧
      (trace_lines w.out).length ≠ 4 ∧
      (trace_lines w.out).map Prod.snd ≠
        [.ProductLaunchStrategyNode, .RatingNode, .LaunchOutcomeNode,
          .PositiveSuccessfulLaunchNodeTesting] ∧
      TypeId.PositiveSuccessfulLaunchNodeTesting ∉ (trace_lines w.out).map Prod.snd ∧
      (trace_lines w.out).get? 2 = (trace_lines w'.out).get? 2 ∧
      w.visited.get? 2 ≠ w'.visited.get? 2 :=
  ⟨_, _, rfl, rfl, by decide, by decide, by decide, by decide, by decide⟩

/-- C8 amended: for testing, a positive rating and a successful launch (every
fuel of 4 or more) the trace is the ordered list of exactly three lines,
numbered 1 to 3, for `root` (a `ProductLaunchStrategyNode`), `ratingNode` (a
`RatingNode`) and `positiveTestingOutcomeNode` (a `LaunchOutcomeNode`, the
type name of all three outcome decisions); the leaf reached,
`positiveTestingSuccessNode`, is returned and has no trace line. -/
theorem example_trace (fl ml : Bool) (fuel : Nat) (hfuel : 4 ≤ fuel) :
    ∃ w, evaluate TRACK_PATH fuel ⟨true, true, true, ml, fl⟩ = some w ∧
      w.out = [.header, .step 1 .ProductLaunchStrategyNode, .step 2 .RatingNode,
        .step 3 .LaunchOutcomeNode, .blank] ∧
      trace_lines w.out = [(1, .ProductLaunchStrategyNode), (2, .RatingNode),
        (3, .LaunchOutcomeNode)] ∧
      w.visited = [(create_tree_body ⟨true, true, true, ml, fl⟩).root,
        (create_tree_body ⟨true, true, true, ml, fl⟩).ratingNode,
        (create_tree_body ⟨true, true, true, ml, fl⟩).positiveTestingOutcomeNode,
        (create_tree_body ⟨true, true, true, ml, fl⟩).positiveTestingSuccessNode] ∧
      w.node = some (create_tree_body ⟨true, true, true, ml, fl⟩).positiveTestingSuccessNode ∧
      (result_node fuel ⟨true, true, true, ml, fl⟩).map typeid =
        some .PositiveSuccessfulLaunchNodeTesting := by
  rw [evaluate_ge_four TRACK_PATH _ fuel hfuel, result_node_ge_four _ fuel hfuel]
  cases fl <;> cases ml <;> exact ⟨_, rfl, by decide⟩

/-- C8 amended, at fuel 4 with the two remaining flags clear. -/
theorem example_trace_witness :
    4 ≤ 4 ∧ ∃ w, evaluate TRACK_PATH 4 ⟨true, true, true, false, false⟩ = some w ∧
      trace_lines w.out = [(1, .ProductLaunchStrategyNode), (2, .RatingNode),
        (3, .LaunchOutcomeNode)] :=
  ⟨by decide,
    match example_trace false false 4 (by decide) with
    | ⟨w, hw, _, ht, _⟩ => ⟨w, hw, ht⟩⟩

theorem get_result_loop_track (h : Heap) :
    ∀ (fuel : Nat) (w w' : Walk), w.node = w'.node → w.visited = w'.visited →
      (get_result_loop true h fuel w).map (fun r => (r.node, r.visited)) =
        (get_result_loop false h fuel w').map (fun r => (r.node, r.visited)) := by
  intro fuel
  induction fuel with
  | zero => intro w w' _ _; rfl
  | succ f ih =>
    intro w w' hn hv
    have hn' : w'.node = w.node := hn.symm
    unfold get_result_loop
    rw [hn']
    rcases hw : w.node with _ | a
    · simp [hn', hw, hv]
    · simp only []
      rcases hd : deref h a with _ | n
      · rfl
      · simp only []
        rcases hp : n.process with _ | next
        · simp [hn', hw, hv]
        · simp only [if_true, Bool.false_eq_true, if_false]
          exact ih _ _ rfl (by simp [hv])

/-- C9: path tracking is observational.  For every heap, every root pointer
and every fuel, `get_result` compiled with `TRACK_PATH` true and with
`TRACK_PATH` false either both run out of fuel or both return, and then they
return the same pointer after holding the same addresses in the same order; in
particular so on the tree of `create_tree`. -/
theorem track_path_observational (h : Heap) (fuel : Nat) (node : TreeNodePtr) :
    (get_result true h fuel node).map Walk.node =
      (get_result false h fuel node).map Walk.node ∧
    (get_result true h fuel node).map Walk.visited =
      (get_result false h fuel node).map Walk.visited ∧
    ∀ p : Params, (evaluate true fuel p).map Walk.node =
      (evaluate false fuel p).map Walk.node := by
  have key : ∀ (h : Heap) (node : TreeNodePtr),
      (get_result true h fuel node).map (fun r => (r.node, r.visited)) =
        (get_result false h fuel node).map (fun r => (r.node, r.visited)) := by
    intro h node
    have := get_result_loop_track h fuel ⟨node, 0, [Out.header], node.toList⟩
      ⟨node, 0, [], node.toList⟩ rfl rfl
    simp only [get_result, if_true, Bool.false_eq_true, if_false]
    rcases h1 : get_result_loop true h fuel ⟨node, 0, [Out.header], node.toList⟩ with _ | r1 <;>
    rcases h2 : get_result_loop false h fuel ⟨node, 0, [], node.toList⟩ with _ | r2 <;>
    simp [h1, h2] at this ⊢
    exact this
  have proj1 : ∀ (h : Heap) (node : TreeNodePtr),
      (get_result true h fuel node).map Walk.node =
        (get_result false h fuel node).map Walk.node := by
    intro h node
    have := congrArg (Option.map Prod.fst) (key h node)
    simpa [Option.map_map, Function.comp_def] using this
  refine ⟨proj1 h node, ?_, fun p => proj1 _ _⟩
  have := congrArg (Option.map Prod.snd) (key h node)
  simpa [Option.map_map, Function.comp_def] using this

/-! ## The rating without market testing -/

theorem rating_unused_without_testing (p : Params) (b : Bool)
    (ht : p.uses_market_testing = false) :
    (result_node 4 (p.set_has_positive_rating b)).map TreeNode.derived =
      (result_node 4 p).map TreeNode.derived ∧
    (evaluate TRACK_PATH 4 (p.set_has_positive_rating b)).map Walk.out =
      (evaluate TRACK_PATH 4 p).map Walk.out ∧
    (evaluate TRACK_PATH 4 (p.set_has_positive_rating b)).map Walk.nodeCount =
      (evaluate TRACK_PATH 4 p).map Walk.nodeCount ∧
    (evaluate TRACK_PATH 4 (p.set_has_positive_rating b)).map
        (walk_types (create_tree (p.set_has_positive_rating b)).1) =
      (evaluate TRACK_PATH 4 p).map (walk_types (create_tree p).1) ∧
    report 4 (p.set_has_positive_rating b) = report 4 p := by
  obtain ⟨umt, hpr, sl, ml, fl⟩ := p
  simp only at ht
  subst ht
  cases b <;> cases hpr <;> cases sl <;> cases ml <;> cases fl <;> decide!

/-- C10 as stated fails: there is no parameter set without market testing for
which building and evaluating the tree with `has_positive_rating` set rather
than clear changes the struct or the value of the leaf reached, the trace
written, or the report line. -/
theorem rating_override_not_load_bearing :
    ¬ ∃ p : Params, p.uses_market_testing = false ∧
      ((result_node 4 (p.set_has_positive_rating true)).map TreeNode.derived ≠
          (result_node 4 (p.set_has_positive_rating false)).map TreeNode.derived ∨
        (evaluate TRACK_PATH 4 (p.set_has_positive_rating true)).map Walk.out ≠
          (evaluate TRACK_PATH 4 (p.set_has_positive_rating false)).map Walk.out ∨
        report 4 (p.set_has_positive_rating true) ≠
          report 4 (p.set_has_positive_rating false)) := by
  rintro ⟨p, ht, hne⟩
  have h1 := rating_unused_without_testing p true ht
  have h0 := rating_unused_without_testing p false ht
  rcases hne with hne | hne | hne
  · exact hne (h1.1.trans h0.1.symm)
  · exact hne (h1.2.1.trans h0.2.1.symm)
  · exact hne (h1.2.2.2.2.trans h0.2.2.2.2.symm)

/-- C10 amended: without market testing the value of `has_positive_rating`
is not read on the path taken.  For every such parameter set and every fuel
of 4 or more, the tree built with `has_positive_rating` set and the tree built
with it clear are each evaluated to a leaf of the same struct and value,
through nodes of the same types in the same order, with the same counter, the
same trace and the same report line; in neither tree is the `RatingNode` held;
the leaves reached belong to two separate trees and store the two different
copies of the parameters. -/
theorem rating_irrelevant_without_testing (p : Params) (fuel : Nat)
    (ht : p.uses_market_testing = false) (hfuel : 4 ≤ fuel) :
    (result_node fuel (p.set_has_positive_rating true)).map TreeNode.derived =
      (result_node fuel (p.set_has_positive_rating false)).map TreeNode.derived ∧
    ((result_node fuel (p.set_has_positive_rating true)).map TreeNode.is_leaf) = some true ∧
    (evaluate TRACK_PATH fuel (p.set_has_positive_rating true)).map Walk.out =
      (evaluate TRACK_PATH fuel (p.set_has_positive_rating false)).map Walk.out ∧
    (evaluate TRACK_PATH fuel (p.set_has_positive_rating true)).map Walk.nodeCount =
      (evaluate TRACK_PATH fuel (p.set_has_positive_rating false)).map Walk.nodeCount ∧
    (evaluate TRACK_PATH fuel (p.set_has_positive_rating true)).map
        (walk_types (create_tree (p.set_has_positive_rating true)).1) =
      (evaluate TRACK_PATH fuel (p.set_has_positive_rating false)).map
        (walk_types (create_tree (p.set_has_positive_rating false)).1) ∧
    (∀ b : Bool, ∃ w, evaluate TRACK_PATH fuel (p.set_has_positive_rating b) = some w ∧
      TypeId.RatingNode ∉ (walk_types (create_tree (p.set_has_positive_rating b)).1 w).filterMap id ∧
      (create_tree_body (p.set_has_positive_rating b)).ratingNode ∉ w.visited) ∧
    report fuel (p.set_has_positive_rating true) =
      report fuel (p.set_has_positive_rating false) ∧
    (result_node fuel (p.set_has_positive_rating true)).map TreeNode.params =
      some (p.set_has_positive_rating true) ∧
    (result_node fuel (p.set_has_positive_rating false)).map TreeNode.params =
      some (p.set_has_positive_rating false) := by
  have hr : ∀ q : Params, report fuel q = report 4 q := by
    intro q
    simp only [report, evaluate_ge_four TRACK_PATH q fuel hfuel]
  simp only [hr, evaluate_ge_four TRACK_PATH _ fuel hfuel, result_node_ge_four _ fuel hfuel]
  have h1 := rating_unused_without_testing p true ht
  have h0 := rating_unused_without_testing p false ht
  refine ⟨h1.1.trans h0.1.symm, ?_, h1.2.1.trans h0.2.1.symm,
    h1.2.2.1.trans h0.2.2.1.symm, h1.2.2.2.1.trans h0.2.2.2.1.symm, ?_,
    h1.2.2.2.2.trans h0.2.2.2.2.symm, ?_, ?_⟩
  · obtain ⟨umt, hpr, sl, ml, fl⟩ := p
    cases umt <;> cases hpr <;> cases sl <;> cases ml <;> cases fl <;> decide!
  · intro b
    obtain ⟨umt, hpr, sl, ml, fl⟩ := p
    simp only at ht
    subst ht
    cases b <;> cases hpr <;> cases sl <;> cases ml <;> cases fl <;>
      exact ⟨_, rfl, by decide!⟩
  · obtain ⟨umt, hpr, sl, ml, fl⟩ := p
    cases umt <;> cases hpr <;> cases sl <;> cases ml <;> cases fl <;> decide!
  · obtain ⟨umt, hpr, sl, ml, fl⟩ := p
    cases umt <;> cases hpr <;> cases sl <;> cases ml <;> cases fl <;> decide!

/-- C10 amended, at one input: no testing, a successful launch, fuel 4. -/
theorem rating_irrelevant_without_testing_witness :
    (⟨false, false, true, false, false⟩ : Params).uses_market_testing = false ∧ 4 ≤ 4 ∧
    (result_node 4 ⟨false, true, true, false, false⟩).map TreeNode.derived =
      (result_node 4 ⟨false, false, true, false, false⟩).map TreeNode.derived ∧
    (evaluate TRACK_PATH 4 ⟨false, true, true, false, false⟩).map Walk.out =
      (evaluate TRACK_PATH 4 ⟨false, false, true, false, false⟩).map Walk.out :=
  ⟨rfl, by decide,
    (rating_irrelevant_without_testing ⟨false, false, true, false, false⟩ 4 rfl
      (by decide)).1,
    (rating_irrelevant_without_testing ⟨false, false, true, false, false⟩ 4 rfl
      (by decide)).2.2.1⟩

/-! ## Paths from the root -/

theorem process_mem_selectable (n : TreeNode) (q : Params) (hl : n.is_leaf = false) :
    (n.with_params q).process ∈ n.selectable := by
  obtain ⟨l, m, r, np, d⟩ := n
  obtain ⟨umt, hpr, sl, ml, fl⟩ := q
  cases d <;> simp [TreeNode.is_leaf] at hl <;>
    cases umt <;> cases hpr <;> cases sl <;> cases ml <;>
    simp [TreeNode.with_params, TreeNode.process, TreeNode.selectable]

theorem create_tree_heap_facts (p : Params) :
    (create_tree_body p).heap.length = 12 ∧ (create_tree_body p).root = 11 ∧
    (∀ a, a < 12 → ∀ b ∈ children_at (create_tree_body p).heap a,
      b < 12 ∧ level b < level a) ∧
    (∀ a, a < 12 →
      ((deref (create_tree_body p).heap a).map TreeNode.is_leaf = some true ∧
        children_at (create_tree_body p).heap a = []) ∨
      ((deref (create_tree_body p).heap a).map TreeNode.is_leaf = some false ∧
        children_at (create_tree_body p).heap a ≠ [])) ∧
    (∀ a, a < 12 → ∀ c ∈ selectable_at (create_tree_body p).heap a,
      (c.bind (deref (create_tree_body p).heap)).isSome = true) := by
  obtain ⟨umt, hpr, sl, ml, fl⟩ := p
  cases umt <;> cases hpr <;> cases sl <;> cases ml <;> cases fl <;> decide!

theorem deref_lt_length (H : Heap) (a : Nat) (n : TreeNode)
    (hd : deref H a = some n) : a < H.length := by
  by_contra hge
  have hnone : deref H a = none := List.get?_eq_none.mpr (Nat.le_of_not_lt hge)
  rw [hnone] at hd
  cases hd

theorem deref_lt (p : Params) (a : Nat) (n : TreeNode)
    (hd : deref (create_tree_body p).heap a = some n) : a < 12 :=
  (create_tree_heap_facts p).1 ▸ deref_lt_length _ a n hd

theorem child_of_mem (H : Heap) (a b : Nat) (hc : child_of H a b = true) :
    b ∈ children_at H a ∧ ∃ n, deref H a = some n := by
  have hmem : b ∈ children_at H a := of_decide_eq_true hc
  refine ⟨hmem, ?_⟩
  rcases hd : deref H a with _ | n
  · unfold children_at at hmem
    rw [hd] at hmem
    cases hmem
  · exact ⟨n, rfl⟩

theorem child_of_level (p : Params) (a b : Nat)
    (hc : child_of (create_tree_body p).heap a b = true) :
    a < 12 ∧ b < 12 ∧ level b < level a := by
  obtain ⟨hmem, n, hd⟩ := child_of_mem _ a b hc
  have ha : a < 12 := deref_lt p a n hd
  exact ⟨ha, (create_tree_heap_facts p).2.2.1 a ha b hmem⟩

theorem path_length_le_level (p : Params) :
    ∀ (path : List Nat) (a : Nat), path.head? = some a →
      List.Chain' (fun x y => child_of (create_tree_body p).heap x y = true) path →
      path.length ≤ level a + 1 ∧ ∀ x ∈ path, x < 12 ∨ x = a := by
  intro path
  induction path with
  | nil => intro a h; cases h
  | cons x rest ih =>
    intro a hhead hchain
    have hxa : x = a := by simpa using hhead
    subst hxa
    cases rest with
    | nil => simp
    | cons y r =>
      rw [List.chain'_cons] at hchain
      obtain ⟨hxy, hrest⟩ := hchain
      obtain ⟨_, hy, hlev⟩ := child_of_level p x y hxy
      obtain ⟨hlen, hall⟩ := ih y rfl hrest
      refine ⟨by simp only [List.length_cons] at hlen ⊢; omega, ?_⟩
      intro z hz
      rcases List.mem_cons.mp hz with hz | hz
      · exact Or.inr hz
      · rcases hall z hz with h | h
        · exact Or.inl h
        · exact Or.inl (h ▸ hy)

/-- C6: in the heap that `create_tree` leaves, every path that starts at
`root` and follows child pointers (left, middle or right, selected or not)
has at most 3 edges; its last node is allocated, and if the path cannot be
continued that node is of one of the seven leaf structs (while a leaf has no
child at all); and every node of a decision struct selects an allocated child
whatever the flags in its copy of the parameters are. -/
theorem every_path_ends_in_leaf (p : Params) (path : List Nat)
    (hroot : path.head? = some (create_tree_body p).root)
    (hpath : List.Chain' (fun a b => child_of (create_tree_body p).heap a b = true) path) :
    path.length ≤ 3 + 1 ∧
    (∃ a n, path.getLast? = some a ∧ deref (create_tree_body p).heap a = some n ∧
      ((∀ b, child_of (create_tree_body p).heap a b = false) → n.is_leaf = true) ∧
      (n.is_leaf = true → ∀ b, child_of (create_tree_body p).heap a b = false)) ∧
    (∀ a n q, deref (create_tree_body p).heap a = some n → n.is_leaf = false →
      ∃ b m, (n.with_params q).process = some b ∧
        deref (create_tree_body p).heap b = some m) := by
  obtain ⟨hlen, hroot11, _, hleaf, hsel⟩ := create_tree_heap_facts p
  obtain ⟨hle, hall⟩ := path_length_le_level p path _ hroot hpath
  generalize hH : (create_tree_body p).heap = H at *
  refine ⟨?_, ?_, ?_⟩
  · rw [hroot11] at hle
    exact hle
  · have hne : path ≠ [] := by
      intro h
      rw [h] at hroot
      cases hroot
    have hlast : path.getLast hne ∈ path := List.getLast_mem hne
    have hlt : path.getLast hne < 12 := by
      rcases hall _ hlast with h | h
      · exact h
      · rw [h, hroot11]; decide
    refine ⟨path.getLast hne, ?_⟩
    rcases hleaf _ hlt with ⟨hl, hc⟩ | ⟨hl, hc⟩
    · rcases hd : deref H (path.getLast hne) with _ | n
      · rw [hd] at hl
        cases hl
      · refine ⟨n, List.getLast?_eq_getLast _ hne, rfl, ?_, ?_⟩
        · intro _
          rw [hd] at hl
          exact Option.some.inj hl
        · intro _ b
          unfold child_of
          rw [hc]
          rfl
    · rcases hd : deref H (path.getLast hne) with _ | n
      · rw [hd] at hl
        cases hl
      · refine ⟨n, List.getLast?_eq_getLast _ hne, rfl, ?_, ?_⟩
        · intro hno
          exfalso
          obtain ⟨b, hb⟩ := List.exists_mem_of_ne_nil _ hc
          have hf := hno b
          unfold child_of at hf
          exact (of_decide_eq_false hf) hb
        · intro hn
          rw [hd] at hl
          have := Option.some.inj hl
          rw [this] at hn
          cases hn
  · intro a n q hd hl
    have ha : a < 12 := hlen ▸ deref_lt_length H a n hd
    have hmem : (n.with_params q).process ∈ selectable_at H a := by
      unfold selectable_at
      rw [hd]
      exact process_mem_selectable n q hl
    have hs := hsel a ha _ hmem
    rcases hb : (n.with_params q).process with _ | b
    · rw [hb] at hs
      cases hs
    · rcases hm : deref H b with _ | m
      · rw [hb] at hs
        simp only [Option.some_bind] at hs
        rw [hm] at hs
        cases hs
      · exact ⟨b, m, rfl, hm⟩

theorem example_path_chain :
    List.Chain' (fun a b =>
      child_of (create_tree_body ⟨true, true, true, false, false⟩).heap a b = true)
      [11, 10, 8, 1] :=
  List.chain'_cons.mpr ⟨by decide!, List.chain'_cons.mpr ⟨by decide!,
    List.chain'_cons.mpr ⟨by decide!, List.chain'_singleton _⟩⟩⟩

theorem example_leaf_no_child (b : Nat) :
    child_of (create_tree_body ⟨true, true, true, false, false⟩).heap 1 b = false := by
  have hnil : children_at (create_tree_body ⟨true, true, true, false, false⟩).heap 1 = [] := by
    decide!
  unfold child_of
  rw [hnil]
  rfl

/-- C6 at one input: the tree of testing, positive rating, successful launch,
and the path of `root`, `ratingNode`, `positiveTestingOutcomeNode` and
`positiveTestingSuccessNode`. -/
theorem every_path_ends_in_leaf_witness :
    [11, 10, 8, 1].head? = some (create_tree_body ⟨true, true, true, false, false⟩).root ∧
    List.Chain' (fun a b =>
      child_of (create_tree_body ⟨true, true, true, false, false⟩).heap a b = true)
      [11, 10, 8, 1] ∧
    [11, 10, 8, 1].length ≤ 3 + 1 ∧
    ∃ a n, [11, 10, 8, 1].getLast? = some a ∧
      deref (create_tree_body ⟨true, true, true, false, false⟩).heap a = some n ∧
      n.is_leaf = true :=
  ⟨rfl, example_path_chain,
    (every_path_ends_in_leaf ⟨true, true, true, false, false⟩ [11, 10, 8, 1] rfl
      example_path_chain).1,
    match (every_path_ends_in_leaf ⟨true, true, true, false, false⟩ [11, 10, 8, 1] rfl
      example_path_chain).2.1 with
    | ⟨a, n, ha, hn, hleaf, _⟩ =>
      ⟨a, n, ha, hn, hleaf (by
        have h1 : a = 1 := (Option.some.inj ha).symm
        subst h1
        exact example_leaf_no_child)⟩⟩

/-! ## The generator -/

/-- C11: whatever the draws are, the parameter set `generate_random_params`
returns has `uses_market_testing` from the first draw; when that flag is
clear `has_positive_rating` is clear (and the next three draws give
`successful_launch`, `modest_launch`, `failed_launch`); when it is set,
`has_positive_rating` is the next draw and `successful_launch`,
`modest_launch`, `failed_launch` are the three draws after it, in that
order. -/
theorem generate_random_params_spec (draws : Nat → Nat) :
    (generate_random_params draws).uses_market_testing = (draws 0 != 0) ∧
    ((generate_random_params draws).uses_market_testing = false →
      (generate_random_params draws).has_positive_rating = false ∧
      (generate_random_params draws).successful_launch = (draws 1 != 0) ∧
      (generate_random_params draws).modest_launch = (draws 2 != 0) ∧
      (generate_random_params draws).failed_launch = (draws 3 != 0)) ∧
    ((generate_random_params draws).uses_market_testing = true →
      (generate_random_params draws).has_positive_rating = (draws 1 != 0) ∧
      (generate_random_params draws).successful_launch = (draws 2 != 0) ∧
      (generate_random_params draws).modest_launch = (draws 3 != 0) ∧
      (generate_random_params draws).failed_launch = (draws 4 != 0)) := by
  unfold generate_random_params
  rcases h0 : draws 0 != 0 with _ | _ <;> simp [h0]

/-- C11 at two inputs: the draws 1, 0, 1, 0, 1 and the draws 0, 1, 1, 0. -/
theorem generate_random_params_spec_witness :
    generate_random_params (fun k => [1, 0, 1, 0, 1].getD k 0) =
      ⟨true, false, true, false, true⟩ ∧
    generate_random_params (fun k => [0, 1, 1, 0].getD k 0) =
      ⟨false, false, true, true, false⟩ ∧
    (generate_random_params (fun k => [0, 1, 1, 0].getD k 0)).has_positive_rating = false :=
  ⟨by decide, by decide,
    ((generate_random_params_spec (fun k => [0, 1, 1, 0].getD k 0)).2.1 (by decide)).1⟩

/-! ## The tree built -/

/-- C12: for every parameter set `create_tree` builds the same topology.  The
root it returns is a `ProductLaunchStrategyNode` with `left_` the rating
decision, `right_` the no-testing outcome decision and no `middle_`; the
`RatingNode` has `right_` the positive-testing and `left_` the negative-testing
outcome decision and no `middle_`; each `LaunchOutcomeNode` has `right_` its own
successful leaf, `middle_` its own modest leaf and `left_` the node `failed`,
one and the same address for the three; the seven leaves have no children;
the twelve addresses are distinct and the heap holds nothing else; children,
structs and values are those of the tree built for the all-false set. -/
theorem create_tree_topology (p : Params) :
    create_tree p = ((create_tree_body p).heap, some (create_tree_body p).root) ∧
    deref (create_tree_body p).heap (create_tree_body p).root =
      some ⟨some (create_tree_body p).ratingNode, none,
        some (create_tree_body p).noTestingOutcomeNode, p, .ProductLaunchStrategyNode⟩ ∧
    deref (create_tree_body p).heap (create_tree_body p).ratingNode =
      some ⟨some (create_tree_body p).negativeTestingOutcomeNode, none,
        some (create_tree_body p).positiveTestingOutcomeNode, p, .RatingNode⟩ ∧
    deref (create_tree_body p).heap (create_tree_body p).noTestingOutcomeNode =
      some ⟨some (create_tree_body p).failed, some (create_tree_body p).noTestingModestNode,
        some (create_tree_body p).noTestingSuccessNode, p, .LaunchOutcomeNode⟩ ∧
    deref (create_tree_body p).heap (create_tree_body p).positiveTestingOutcomeNode =
      some ⟨some (create_tree_body p).failed,
        some (create_tree_body p).positiveTestingModestNode,
        some (create_tree_body p).positiveTestingSuccessNode, p, .LaunchOutcomeNode⟩ ∧
    deref (create_tree_body p).heap (create_tree_body p).negativeTestingOutcomeNode =
      some ⟨some (create_tree_body p).failed,
        some (create_tree_body p).negativeTestingModestNode,
        some (create_tree_body p).negativeTestingSuccessNode, p, .LaunchOutcomeNode⟩ ∧
    deref (create_tree_body p).heap (create_tree_body p).failed =
      some ⟨none, none, none, p, .FailedLaunchNode (dollars 0)⟩ ∧
    deref (create_tree_body p).heap (create_tree_body p).positiveTestingSuccessNode =
      some ⟨none, none, none, p, .PositiveSuccessfulLaunchNodeTesting (dollars 150000)⟩ ∧
    deref (create_tree_body p).heap (create_tree_body p).positiveTestingModestNode =
      some ⟨none, none, none, p, .PositiveModestLaunchNodeTesting (dollars 75000)⟩ ∧
    deref (create_tree_body p).heap (create_tree_body p).negativeTestingSuccessNode =
      some ⟨none, none, none, p, .NegativeSuccessfulLaunchNodeTesting (dollars 75000)⟩ ∧
    deref (create_tree_body p).heap (create_tree_body p).negativeTestingModestNode =
      some ⟨none, none, none, p, .NegativeModestLaunchNodeTesting (dollars 50000)⟩ ∧
    deref (create_tree_body p).heap (create_tree_body p).noTestingSuccessNode =
      some ⟨none, none, none, p, .NoTestingSuccessfulLaunchNode (dollars 100000)⟩ ∧
    deref (create_tree_body p).heap (create_tree_body p).noTestingModestNode =
      some ⟨none, none, none, p, .NoTestingModestLaunchNode (dollars 50000)⟩ ∧
    [(create_tree_body p).failed, (create_tree_body p).positiveTestingSuccessNode,
      (create_tree_body p).positiveTestingModestNode,
      (create_tree_body p).negativeTestingSuccessNode,
      (create_tree_body p).negativeTestingModestNode,
      (create_tree_body p).noTestingSuccessNode, (create_tree_body p).noTestingModestNode,
      (create_tree_body p).noTestingOutcomeNode,
      (create_tree_body p).positiveTestingOutcomeNode,
      (create_tree_body p).negativeTestingOutcomeNode, (create_tree_body p).ratingNode,
      (create_tree_body p).root].Nodup ∧
    (create_tree_body p).heap.length = 12 ∧
    (create_tree_body p).heap.map (fun n => (n.left_, n.middle_, n.right_, n.derived)) =
      (create_tree_body Params.ctor).heap.map
        (fun n => (n.left_, n.middle_, n.right_, n.derived)) ∧
    (create_tree_body p).root = (create_tree_body Params.ctor).root := by
  obtain ⟨umt, hpr, sl, ml, fl⟩ := p
  cases umt <;> cases hpr <;> cases sl <;> cases ml <;> cases fl <;> decide!

/-- C13: every node of the heap `create_tree` leaves, the five decision nodes
and the seven leaves, stores a copy of the parameters equal to the argument in
all five flags. -/
theorem create_tree_params (p : Params) :
    ((create_tree_body p).heap.filter (fun n => n.is_leaf)).length = 7 ∧
    ((create_tree_body p).heap.filter (fun n => !n.is_leaf)).length = 5 ∧
    ∀ a n, deref (create_tree_body p).heap a = some n →
      n.params = p ∧
      n.params.uses_market_testing = p.uses_market_testing ∧
      n.params.has_positive_rating = p.has_positive_rating ∧
      n.params.successful_launch = p.successful_launch ∧
      n.params.modest_launch = p.modest_launch ∧
      n.params.failed_launch = p.failed_launch := by
  refine ⟨?_, ?_, ?_⟩
  · obtain ⟨umt, hpr, sl, ml, fl⟩ := p
    cases umt <;> cases hpr <;> cases sl <;> cases ml <;> cases fl <;> decide!
  · obtain ⟨umt, hpr, sl, ml, fl⟩ := p
    cases umt <;> cases hpr <;> cases sl <;> cases ml <;> cases fl <;> decide!
  intro a n hd
  have ha := deref_lt p a n hd
  have hall : ∀ a, a < 12 →
      ∀ n ∈ deref (create_tree_body p).heap a, n.params = p := by
    obtain ⟨umt, hpr, sl, ml, fl⟩ := p
    cases umt <;> cases hpr <;> cases sl <;> cases ml <;> cases fl <;> decide!
  have hp := hall a ha n hd
  exact ⟨hp, by rw [hp], by rw [hp], by rw [hp], by rw [hp], by rw [hp]⟩

/-- C13 at one input: the root of the tree of testing, negative rating,
modest launch. -/
theorem create_tree_params_witness :
    deref (create_tree_body ⟨true, false, false, true, false⟩).heap 11 =
      some ⟨some 10, none, some 7, ⟨true, false, false, true, false⟩,
        .ProductLaunchStrategyNode⟩ ∧
    (⟨some 10, none, some 7, ⟨true, false, false, true, false⟩,
        .ProductLaunchStrategyNode⟩ : TreeNode).params = ⟨true, false, false, true, false⟩ :=
  ⟨rfl, ((create_tree_params ⟨true, false, false, true, false⟩).2.2 11 _ rfl).1⟩


/-- C14: the constructor `Params()` clears all five flags; `create_tree` on
that set returns an allocated root in a heap of twelve nodes; and `get_result`
on it (every fuel of 4 or more) holds `root`, then `noTestingOutcomeNode`, and
returns `failed`, a `FailedLaunchNode` of value 0. -/
theorem default_params_evaluation (fuel : Nat) (hfuel : 4 ≤ fuel) :
    Params.ctor = ⟨false, false, false, false, false⟩ ∧
    (create_tree Params.ctor).1.length = 12 ∧
    ((create_tree Params.ctor).2.bind (deref (create_tree Params.ctor).1)).map typeid =
      some .ProductLaunchStrategyNode ∧
    (evaluate TRACK_PATH fuel Params.ctor).map Walk.visited =
      some [(create_tree_body Params.ctor).root,
        (create_tree_body Params.ctor).noTestingOutcomeNode,
        (create_tree_body Params.ctor).failed] ∧
    (evaluate TRACK_PATH fuel Params.ctor).map Walk.node =
      some (some (create_tree_body Params.ctor).failed) ∧
    result_node fuel Params.ctor =
      some (TreeNode.ctor Params.ctor (.FailedLaunchNode (dollars 0))) ∧
    (result_node fuel Params.ctor).bind TreeNode.value = some 0 := by
  rw [evaluate_ge_four TRACK_PATH _ fuel hfuel, result_node_ge_four _ fuel hfuel]
  decide!

/-- C14 at fuel 4. -/
theorem default_params_evaluation_witness :
    4 ≤ 4 ∧ (evaluate TRACK_PATH 4 Params.ctor).map Walk.visited = some [11, 7, 0] ∧
    (result_node 4 Params.ctor).bind TreeNode.value = some 0 :=
  ⟨by decide, (default_params_evaluation 4 (by decide)).2.2.2.1,
    (default_params_evaluation 4 (by decide)).2.2.2.2.2.2⟩

theorem failed_launch_unused (p : Params) (b : Bool) :
    evaluate TRACK_PATH 4 (p.set_failed_launch b) = evaluate TRACK_PATH 4 p ∧
    (result_node 4 (p.set_failed_launch b)).map TreeNode.derived =
      (result_node 4 p).map TreeNode.derived ∧
    report 4 (p.set_failed_launch b) = report 4 p := by
  obtain ⟨umt, hpr, sl, ml, fl⟩ := p
  cases b <;> cases umt <;> cases hpr <;> cases sl <;> cases ml <;> cases fl <;> decide!

/-- C19: `failed_launch` is not read.  For every parameter set `p` and every
fuel of 4 or more, evaluating the tree of `p` with `failed_launch` set and
with it clear returns the same pointer after the same addresses, counter and
trace, to a leaf of the same struct and value, with the same report line;
with `failed_launch` and `successful_launch` both set the leaf is not a
`FailedLaunchNode`, and with `failed_launch`, `successful_launch` and
`modest_launch` all clear it is one. -/
theorem failed_launch_no_effect (p : Params) (fuel : Nat) (hfuel : 4 ≤ fuel) :
    evaluate TRACK_PATH fuel (p.set_failed_launch true) =
      evaluate TRACK_PATH fuel (p.set_failed_launch false) ∧
    (evaluate TRACK_PATH fuel (p.set_failed_launch true)).isSome = true ∧
    (result_node fuel (p.set_failed_launch true)).map TreeNode.derived =
      (result_node fuel (p.set_failed_launch false)).map TreeNode.derived ∧
    ((result_node fuel (p.set_failed_launch true)).map TreeNode.derived).isSome = true ∧
    report fuel (p.set_failed_launch true) = report fuel (p.set_failed_launch false) ∧
    (p.successful_launch = true →
      (result_node fuel (p.set_failed_launch true)).map typeid ≠ some .FailedLaunchNode) ∧
    (p.successful_launch = false → p.modest_launch = false →
      (result_node fuel (p.set_failed_launch false)).map typeid = some .FailedLaunchNode) := by
  have hr : ∀ q : Params, report fuel q = report 4 q := by
    intro q
    simp only [report, evaluate_ge_four TRACK_PATH q fuel hfuel]
  simp only [hr, evaluate_ge_four TRACK_PATH _ fuel hfuel, result_node_ge_four _ fuel hfuel]
  have h1 := failed_launch_unused p true
  have h0 := failed_launch_unused p false
  refine ⟨h1.1.trans h0.1.symm, evaluate_four_isSome _ _, h1.2.1.trans h0.2.1.symm, ?_,
    h1.2.2.trans h0.2.2.symm, ?_, ?_⟩
  · obtain ⟨umt, hpr, sl, ml, fl⟩ := p
    cases umt <;> cases hpr <;> cases sl <;> cases ml <;> cases fl <;> decide!
  · obtain ⟨umt, hpr, sl, ml, fl⟩ := p
    cases umt <;> cases hpr <;> cases sl <;> cases ml <;> cases fl <;> decide!
  · obtain ⟨umt, hpr, sl, ml, fl⟩ := p
    cases umt <;> cases hpr <;> cases sl <;> cases ml <;> cases fl <;> decide!

/-- C19 at one input: testing, positive rating, successful launch, fuel 4. -/
theorem failed_launch_no_effect_witness :
    4 ≤ 4 ∧
    evaluate TRACK_PATH 4 ⟨true, true, true, false, true⟩ =
      evaluate TRACK_PATH 4 ⟨true, true, true, false, false⟩ ∧
    (result_node 4 ⟨true, true, true, false, true⟩).map typeid ≠ some .FailedLaunchNode :=
  ⟨by decide, (failed_launch_no_effect ⟨true, true, true, false, false⟩ 4 (by decide)).1,
    (failed_launch_no_effect ⟨true, true, true, false, false⟩ 4 (by decide)).2.2.2.2.2.1 rfl⟩

/-- C20: each of the seven leaf structs is returned for some parameter set
(every fuel of 4 or more), and the `FailedLaunchNode` is returned after each of
the three outcome decisions: after `noTestingOutcomeNode`, after
`positiveTestingOutcomeNode` and after `negativeTestingOutcomeNode`. -/
theorem every_leaf_reachable (fuel : Nat) (hfuel : 4 ≤ fuel) :
    (∃ p, (result_node fuel p).map typeid = some .FailedLaunchNode) ∧
    (∃ p, (result_node fuel p).map typeid = some .NegativeSuccessfulLaunchNodeTesting) ∧
    (∃ p, (result_node fuel p).map typeid = some .NegativeModestLaunchNodeTesting) ∧
    (∃ p, (result_node fuel p).map typeid = some .PositiveSuccessfulLaunchNodeTesting) ∧
    (∃ p, (result_node fuel p).map typeid = some .PositiveModestLaunchNodeTesting) ∧
    (∃ p, (result_node fuel p).map typeid = some .NoTestingSuccessfulLaunchNode) ∧
    (∃ p, (result_node fuel p).map typeid = some .NoTestingModestLaunchNode) ∧
    (∃ p, (result_node fuel p).map typeid = some .FailedLaunchNode ∧
      (evaluate TRACK_PATH fuel p).map Walk.visited =
        some [(create_tree_body p).root, (create_tree_body p).noTestingOutcomeNode,
          (create_tree_body p).failed]) ∧
    (∃ p, (result_node fuel p).map typeid = some .FailedLaunchNode ∧
      (evaluate TRACK_PATH fuel p).map Walk.visited =
        some [(create_tree_body p).root, (create_tree_body p).ratingNode,
          (create_tree_body p).positiveTestingOutcomeNode, (create_tree_body p).failed]) ∧
    (∃ p, (result_node fuel p).map typeid = some .FailedLaunchNode ∧
      (evaluate TRACK_PATH fuel p).map Walk.visited =
        some [(create_tree_body p).root, (create_tree_body p).ratingNode,
          (create_tree_body p).negativeTestingOutcomeNode, (create_tree_body p).failed]) := by
  simp only [evaluate_ge_four TRACK_PATH _ fuel hfuel, result_node_ge_four _ fuel hfuel]
  exact ⟨⟨⟨false, false, false, false, false⟩, by decide!⟩,
    ⟨⟨true, false, true, false, false⟩, by decide!⟩,
    ⟨⟨true, false, false, true, false⟩, by decide!⟩,
    ⟨⟨true, true, true, false, false⟩, by decide!⟩,
    ⟨⟨true, true, false, true, false⟩, by decide!⟩,
    ⟨⟨false, false, true, false, false⟩, by decide!⟩,
    ⟨⟨false, false, false, true, false⟩, by decide!⟩,
    ⟨⟨false, false, false, false, false⟩, by decide!⟩,
    ⟨⟨true, true, false, false, false⟩, by decide!⟩,
    ⟨⟨true, false, false, false, false⟩, by decide!⟩⟩

/-- C20 at fuel 4: the positive modest leaf is reached. -/
theorem every_leaf_reachable_witness :
    4 ≤ 4 ∧ ∃ p, (result_node 4 p).map typeid = some .PositiveModestLaunchNodeTesting :=
  ⟨by decide, (every_leaf_reachable 4 (by decide)).2.2.2.2.1⟩


/-! ## Calls of the evaluator -/

theorem get_result_rc_loop_fuel ( track : Bool) (k : Nat) :
    ∀ (fuel : Nat) (s : Store) (w : Walk) (r : Store × Walk),
      get_result_rc_loop track fuel s w = some r →
      get_result_rc_loop track (fuel + k) s w = some r := by
  intro fuel
  induction fuel with
  | zero => intro s w r hr; simp [get_result_rc_loop] at hr
  | succ f ih =>
    intro s w r hr
    rw [Nat.succ_add]
    unfold get_result_rc_loop at hr ⊢
    rcases hn : w.node with _ | a
    · simpa [hn] using hr
    · simp only [hn] at hr ⊢
      rcases h1 : s.node_at a with _ | n
      · simp [h1] at hr
      · simp only [h1] at hr ⊢
        rcases h2 : n.process with _ | t
        · simpa [h2] using hr
        · simp only [h2] at hr ⊢
          rcases h3 : release (retain s (some t)) (some t) with _ | s1
          · simp [h3] at hr
          · simp only [h3] at hr ⊢
            rcases h4 : s1.node_at a with _ | n'
            · simp [h4] at hr
            · simp only [h4] at hr ⊢
              rcases h5 : n'.process with _ | next
              · simp [h5] at hr
              · simp only [h5] at hr ⊢
                rcases h6 : release (retain s1 (some next)) (some a) with _ | s2
                · simp [h6] at hr
                · simp only [h6] at hr ⊢
                  cases track
                  · simp only [Bool.false_eq_true, if_false] at hr ⊢
                    exact ih _ _ _ hr
                  · simp only [if_true] at hr ⊢
                    exact ih _ _ _ hr

theorem call_get_result_fuel ( track : Bool) (fuel k : Nat) (s : Store)
    (root : TreeNodePtr) (r : Store × Walk)
    (hr : call_get_result track fuel s root = some r) :
    call_get_result track (fuel + k) s root = some r := by
  simp only [call_get_result, get_result_rc] at hr ⊢
  rcases hl : get_result_rc_loop track fuel (retain s root)
      ⟨root, 0, if track then [Out.header] else [], root.toList⟩ with _ | x
  · simp [hl] at hr
  · rw [get_result_rc_loop_fuel track k fuel _ _ x hl]
    simpa [hl] using hr

theorem evaluation_twice_four (p : Params) :
    ∃ s0 root s1 s2 w,
      create_tree_rc p = some (s0, root) ∧
      call_get_result TRACK_PATH 4 s0 root = some (s1, w) ∧
      call_get_result TRACK_PATH 4 s1 root = some (s2, w) ∧
      evaluate TRACK_PATH 4 p = some w ∧
      s0.nodes = (create_tree p).1.map some ∧ root = (create_tree p).2 ∧
      s1.nodes = s0.nodes ∧ s2.nodes = s0.nodes ∧
      s1 = retain s0 w.node ∧ s2 = retain s1 w.node ∧
      (w.node.bind s0.node_at).map TreeNode.is_leaf = some true := by
  obtain ⟨umt, hpr, sl, ml, fl⟩ := p
  cases umt <;> cases hpr <;> cases sl <;> cases ml <;> cases fl <;>
    exact ⟨_, _, _, _, _, rfl, rfl, rfl, rfl, by decide!⟩

/-- C15: evaluation is deterministic and leaves the tree alone.  For every
parameter set and every fuel of 4 or more, with the tree built by
`create_tree` and held in the caller's variable as `main` does, two calls
`get_result(root)` in a row both return, make the same walk (the same
pointer returned, the same addresses held, the same counter and the same
output, which are those of `get_result` on the heap of `create_tree`), and
after each call every node of the tree is still there with the children and
the parameters it had; the one change is that the leaf reached has one more
owner per pointer returned. -/
theorem evaluation_idempotent (p : Params) (fuel : Nat) (hfuel : 4 ≤ fuel) :
    ∃ s0 root s1 s2 w,
      create_tree_rc p = some (s0, root) ∧
      call_get_result TRACK_PATH fuel s0 root = some (s1, w) ∧
      call_get_result TRACK_PATH fuel s1 root = some (s2, w) ∧
      evaluate TRACK_PATH fuel p = some w ∧
      s0.nodes = (create_tree p).1.map some ∧ root = (create_tree p).2 ∧
      s1.nodes = s0.nodes ∧ s2.nodes = s0.nodes ∧
      s1 = retain s0 w.node ∧ s2 = retain s1 w.node ∧
      (w.node.bind s0.node_at).map TreeNode.is_leaf = some true := by
  obtain ⟨k, rfl⟩ := Nat.exists_eq_add_of_le hfuel
  obtain ⟨s0, root, s1, s2, w, hb, h1, h2, he, hrest⟩ := evaluation_twice_four p
  exact ⟨s0, root, s1, s2, w, hb, call_get_result_fuel TRACK_PATH 4 k s0 root _ h1,
    call_get_result_fuel TRACK_PATH 4 k s1 root _ h2,
    evaluate_fuel TRACK_PATH 4 k p w he, hrest⟩

/-- C15 at one input: testing, positive rating, successful launch, fuel 4. -/
theorem evaluation_idempotent_witness :
    4 ≤ 4 ∧ ∃ s0 root s1 s2 w,
      create_tree_rc ⟨true, true, true, false, false⟩ = some (s0, root) ∧
      call_get_result TRACK_PATH 4 s0 root = some (s1, w) ∧
      call_get_result TRACK_PATH 4 s1 root = some (s2, w) ∧
      s1.nodes = s0.nodes ∧ s2.nodes = s0.nodes :=
  ⟨by decide,
    match evaluation_idempotent ⟨true, true, true, false, false⟩ 4 (by decide) with
    | ⟨s0, root, s1, s2, w, h0, h1, h2, _, _, _, h6, h7, _⟩ =>
      ⟨s0, root, s1, s2, w, h0, h1, h2, h6, h7⟩⟩

theorem get_result_on_temporary_destroys_root :
    ∃ s0 root s1 w,
      create_tree_rc ⟨true, true, true, false, false⟩ = some (s0, root) ∧
      call_get_result_temporary TRACK_PATH 4 s0 root = some (s1, w) ∧
      s1.nodes ≠ s0.nodes ∧ (root.bind s1.node_at) = none ∧
      (w.node.bind s1.node_at).map TreeNode.is_leaf = some true :=
  ⟨_, _, _, _, rfl, rfl, by decide!⟩

/-! ## The defensive branches -/

theorem process_of_leaf (n : TreeNode) (hl : n.is_leaf = true) : n.process = none := by
  obtain ⟨l, m, r, np, d⟩ := n
  cases d <;> simp [TreeNode.is_leaf] at hl <;> rfl

theorem get_result_stops ( track : Bool) (h : Heap) (k : Nat) (a : Nat) (n : TreeNode)
    (hd : deref h a = some n) (hp : n.process = none) :
    get_result track h (k + 1) (some a) =
      some ⟨some a, 0, (if track then [Out.header] else []) ++ [Out.blank], [a]⟩ := by
  simp [get_result, get_result_loop, hd, hp]

/-- C17: `get_result` is defensive and returns the pointer it ends with.  In
every heap (every fuel of 1 or more), a null root is returned as null and a
root pointing to a node of one of the seven leaf structs is returned as it is,
the `process()` of a leaf being null; in both cases no trace line is written,
only the heading and the closing newline. -/
theorem get_result_defensive (h : Heap) (fuel : Nat) (hfuel : 1 ≤ fuel) :
    get_result TRACK_PATH h fuel none = some ⟨none, 0, [.header, .blank], []⟩ ∧
    (get_result TRACK_PATH h fuel none).map (fun w => trace_lines w.out) = some [] ∧
    ∀ a n, deref h a = some n → n.is_leaf = true →
      n.process = none ∧
      get_result TRACK_PATH h fuel (some a) = some ⟨some a, 0, [.header, .blank], [a]⟩ ∧
      (get_result TRACK_PATH h fuel (some a)).map (fun w => trace_lines w.out) = some [] := by
  obtain ⟨k, rfl⟩ := Nat.exists_eq_add_of_le hfuel
  rw [Nat.add_comm]
  have hnone : get_result TRACK_PATH h (k + 1) none = some ⟨none, 0, [.header, .blank], []⟩ := by
    simp [get_result, get_result_loop, TRACK_PATH]
  refine ⟨hnone, by rw [hnone]; rfl, ?_⟩
  intro a n hd hl
  have hp := process_of_leaf n hl
  have hs := get_result_stops TRACK_PATH h k a n hd hp
  have hs' : get_result TRACK_PATH h (k + 1) (some a) =
      some ⟨some a, 0, [.header, .blank], [a]⟩ := by
    rw [hs]; rfl
  exact ⟨hp, hs', by rw [hs']; rfl⟩

/-- C17 at one input: the heap of the tree for the all-false set, the leaf
`noTestingSuccessNode` as root, fuel 1. -/
theorem get_result_defensive_witness :
    1 ≤ 1 ∧
    deref (create_tree_body Params.ctor).heap 5 =
      some (TreeNode.ctor Params.ctor (.NoTestingSuccessfulLaunchNode (dollars 100000))) ∧
    get_result TRACK_PATH (create_tree_body Params.ctor).heap 1 (some 5) =
      some ⟨some 5, 0, [.header, .blank], [5]⟩ ∧
    get_result TRACK_PATH (create_tree_body Params.ctor).heap 1 none =
      some ⟨none, 0, [.header, .blank], []⟩ :=
  ⟨by decide, by decide!,
    ((get_result_defensive (create_tree_body Params.ctor).heap 1 (by decide)).2.2 5
      (TreeNode.ctor Params.ctor (.NoTestingSuccessfulLaunchNode (dollars 100000)))
      (by decide!) rfl).2.1,
    (get_result_defensive (create_tree_body Params.ctor).heap 1 (by decide)).1⟩

/-- C18: in every heap (every fuel of 1 or more), for a node of a decision
struct (`ProductLaunchStrategyNode`, `RatingNode` or `LaunchOutcomeNode`) whose
`process()` is null, the child its parameters select being absent,
`get_result` on a pointer to it returns that pointer; and the classifier
writes the fallback line for a pointer to a node of a decision struct and for
a null pointer. -/
theorem stops_at_decision_node (h : Heap) (fuel : Nat) (a : Nat) (n : TreeNode)
    (hfuel : 1 ≤ fuel) (hd : deref h a = some n) (hdec : n.is_leaf = false) :
    (n.process = none →
      get_result TRACK_PATH h fuel (some a) = some ⟨some a, 0, [.header, .blank], [a]⟩ ∧
      (get_result TRACK_PATH h fuel (some a)).map (fun w => main_report h w.node) =
        some unknown_result) ∧
    main_report h (some a) = unknown_result ∧
    main_report h none = unknown_result ∧
    unknown_result = "Unexpected or Unknown result....\n" := by
  have hrep : main_report h (some a) = unknown_result := by
    obtain ⟨l, m, r, np, d⟩ := n
    cases d <;> simp [TreeNode.is_leaf] at hdec <;>
      simp [main_report, hd]
  refine ⟨?_, hrep, rfl, rfl⟩
  intro hp
  obtain ⟨k, rfl⟩ := Nat.exists_eq_add_of_le hfuel
  rw [Nat.add_comm]
  have hs := get_result_stops TRACK_PATH h k a n hd hp
  have hs' : get_result TRACK_PATH h (k + 1) (some a) =
      some ⟨some a, 0, [.header, .blank], [a]⟩ := by
    rw [hs]; rfl
  exact ⟨hs', by rw [hs']; exact congrArg some hrep⟩

/-- C18 at one input: a root that goes right to a `LaunchOutcomeNode` without
children.  The walk from the root stops at that node and the report is the
fallback line. -/
theorem stops_at_decision_node_witness :
    1 ≤ 2 ∧
    get_result TRACK_PATH
      [⟨none, none, some 1, Params.ctor, .ProductLaunchStrategyNode⟩,
        TreeNode.ctor Params.ctor .LaunchOutcomeNode] 2 (some 1) =
      some ⟨some 1, 0, [.header, .blank], [1]⟩ ∧
    get_result TRACK_PATH
      [⟨none, none, some 1, Params.ctor, .ProductLaunchStrategyNode⟩,
        TreeNode.ctor Params.ctor .LaunchOutcomeNode] 2 (some 0) =
      some ⟨some 1, 1, [.header, .step 1 .ProductLaunchStrategyNode, .blank], [0, 1]⟩ ∧
    main_report
      [⟨none, none, some 1, Params.ctor, .ProductLaunchStrategyNode⟩,
        TreeNode.ctor Params.ctor .LaunchOutcomeNode] (some 1) = unknown_result :=
  ⟨by decide,
    ((stops_at_decision_node
      [⟨none, none, some 1, Params.ctor, .ProductLaunchStrategyNode⟩,
        TreeNode.ctor Params.ctor .LaunchOutcomeNode] 2 1
      (TreeNode.ctor Params.ctor .LaunchOutcomeNode) (by decide) rfl rfl).1 rfl).1,
    by decide,
    (stops_at_decision_node
      [⟨none, none, some 1, Params.ctor, .ProductLaunchStrategyNode⟩,
        TreeNode.ctor Params.ctor .LaunchOutcomeNode] 2 1
      (TreeNode.ctor Params.ctor .LaunchOutcomeNode) (by decide) rfl rfl).2.1⟩

/-! ## The numbering of the trace -/

theorem trace_lines_append (xs ys : List Out) :
    trace_lines (xs ++ ys) = trace_lines xs ++ trace_lines ys := by
  induction xs with
  | nil => rfl
  | cons x rest ih =>
    cases x <;> simp [trace_lines, ih]

theorem traceInv_step (h : Heap) (w : Walk) (a next : Nat) (n : TreeNode)
    (hinv : TraceInv h w) (hnode : w.node = some a) (hd : deref h a = some n)
    (hp : n.process = some next) :
    TraceInv h ⟨some next, (w.nodeCount + 1) % 4294967296,
      w.out ++ [Out.step ((w.nodeCount + 1) % 4294967296) (typeid n)],
      w.visited ++ [next]⟩ := by
  obtain ⟨hlast, hlen, hcount, hpoint, hchain⟩ := hinv
  have hlast' : w.visited.getLast? = some a := by rw [← hlast, hnode]
  have hne : w.visited ≠ [] := by
    intro hnil
    rw [hnil] at hlast'
    cases hlast'
  have hpos : 0 < w.visited.length := List.length_pos.mpr hne
  have hat : w.visited[w.visited.length - 1]? = some a := by
    rw [← List.getLast?_eq_getElem?]
    exact hlast'
  have hmod : (w.nodeCount + 1) % 4294967296 = (w.visited.length - 1 + 1) % 4294967296 := by
    rw [hcount]
    omega
  refine ⟨?_, ?_, ?_, ?_, ?_⟩
  · exact (List.getLast?_concat _).symm
  · simp only [trace_lines_append, trace_lines, List.length_append, List.length_singleton,
      hlen]
    omega
  · simp only [List.length_append, List.length_singleton]
    rw [hmod]
    congr 1
    omega
  · intro k hk
    simp only [List.length_append, List.length_singleton] at hk
    simp only [trace_lines_append, trace_lines]
    by_cases hlt : k < w.visited.length - 1
    · rw [List.getElem?_append_left (by rw [hlen]; exact hlt),
        List.getElem?_append_left (by omega)]
      exact hpoint k hlt
    · have hk' : k = w.visited.length - 1 := by omega
      subst hk'
      rw [List.getElem?_append_right (by rw [hlen]),
        List.getElem?_append_left (by omega), hat, hlen]
      simp [hd, hmod]
  · refine List.Chain'.append hchain (List.chain'_singleton _) ?_
    intro x hx y hy
    rw [hlast'] at hx
    have hxa : x = a := (Option.some.inj hx).symm
    have hyn : y = next := by simpa using hy.symm
    subst hxa hyn
    simp [hd, hp]

theorem traceInv_loop (h : Heap) :
    ∀ (fuel : Nat) (w r : Walk), TraceInv h w →
      get_result_loop true h fuel w = some r →
      TraceInv h r ∧ (r.node.bind (deref h)).bind TreeNode.process = none ∧
        ∃ vs, r.visited = w.visited ++ vs := by
  intro fuel
  induction fuel with
  | zero => intro w r _ hr; simp [get_result_loop] at hr
  | succ f ih =>
    intro w r hinv hr
    unfold get_result_loop at hr
    rcases hn : w.node with _ | a
    · simp only [hn, Option.some.injEq] at hr
      subst hr
      exact ⟨hinv, by simp [hn], [], by simp⟩
    · simp only [hn] at hr
      rcases hd : deref h a with _ | n
      · simp [hd] at hr
      · simp only [hd] at hr
        rcases hp : n.process with _ | next
        · simp only [hp, Option.some.injEq] at hr
          subst hr
          exact ⟨hinv, by simp [hn, hd, hp], [], by simp⟩
        · simp only [hp, if_true] at hr
          obtain ⟨hinv', hstop, vs, hvs⟩ := ih _ r (traceInv_step h w a next n hinv hn hd hp) hr
          exact ⟨hinv', hstop, next :: vs, by simpa using hvs⟩

theorem traceInv_get_result (h : Heap) (fuel : Nat) (root : TreeNodePtr) (w : Walk)
    (hw : get_result true h fuel root = some w) :
    TraceInv h w ∧ (w.node.bind (deref h)).bind TreeNode.process = none ∧
      w.visited.head? = root := by
  simp only [get_result, if_true] at hw
  rcases hl : get_result_loop true h fuel ⟨root, 0, [Out.header], root.toList⟩ with _ | r
  · simp [hl] at hw
  · simp only [hl, Option.some.injEq] at hw
    have hinit : TraceInv h ⟨root, 0, [Out.header], root.toList⟩ := by
      cases root with
      | none => exact ⟨rfl, rfl, rfl, by intro k hk; simp at hk, List.chain'_nil⟩
      | some a =>
        exact ⟨rfl, rfl, rfl, by intro k hk; simp at hk, List.chain'_singleton _⟩
    obtain ⟨⟨h1, h2, h3, h4, h5⟩, hstop, vs, hvs⟩ := traceInv_loop h fuel _ r hinit hl
    subst hw
    have htl : trace_lines (r.out ++ [Out.blank]) = trace_lines r.out := by
      simp [trace_lines_append, trace_lines]
    refine ⟨⟨h1, ?_, h3, ?_, h5⟩, hstop, ?_⟩
    · simp only [htl]; exact h2
    · simp only [htl]; exact h4
    · cases root with
      | none =>
        cases fuel with
        | zero => simp [get_result_loop] at hl
        | succ f =>
          simp only [get_result_loop, Option.some.injEq] at hl
          rw [← hl]
          rfl
      | some a =>
        simp only [] at hvs ⊢
        rw [hvs]
        rfl


theorem process_mem_children (n : TreeNode) (b : Nat) (hp : n.process = some b) :
    b ∈ n.children := by
  obtain ⟨l, m, r, np, d⟩ := n
  cases d <;> simp only [TreeNode.process] at hp <;> try cases hp
  all_goals
    simp only [TreeNode.children, List.mem_append, Option.mem_toList, Option.mem_def]
    split_ifs at hp <;> simp [hp]

theorem process_child_of (h : Heap) (a b : Nat) (n : TreeNode) (hd : deref h a = some n)
    (hp : n.process = some b) : child_of h a b = true := by
  unfold child_of children_at
  rw [hd]
  exact decide_eq_true (process_mem_children n b hp)

theorem loop_terminates (h : Heap) (rank : Nat → Nat)
    (hvalid : ∀ x y, child_of h x y = true → y < h.length)
    (hrank : ∀ x y, child_of h x y = true → rank y < rank x) :
    ∀ (fuel : Nat) (w : Walk) (a : Nat), w.node = some a → a < h.length → rank a < fuel →
      ∃ r, get_result_loop true h fuel w = some r := by
  intro fuel
  induction fuel with
  | zero => intro w a _ _ hf; omega
  | succ f ih =>
    intro w a hn ha hf
    unfold get_result_loop
    simp only [hn]
    have hd : deref h a = some (h.get ⟨a, ha⟩) := by
      unfold deref
      rw [List.get?_eq_getElem?, List.getElem?_eq_getElem ha]
      rfl
    simp only [hd]
    rcases hp : (h.get ⟨a, ha⟩).process with _ | next
    · exact ⟨w, rfl⟩
    · simp only [if_true]
      have hc := process_child_of h a next _ hd hp
      exact ih _ next rfl (hvalid a next hc) (by have := hrank a next hc; omega)

theorem get_result_terminates (h : Heap) (rank : Nat → Nat) (a fuel : Nat)
    (ha : a < h.length)
    (hvalid : ∀ x y, child_of h x y = true → y < h.length)
    (hrank : ∀ x y, child_of h x y = true → rank y < rank x)
    (hfuel : rank a < fuel) :
    ∃ w, get_result true h fuel (some a) = some w := by
  obtain ⟨r, hr⟩ := loop_terminates h rank hvalid hrank fuel
    ⟨some a, 0, [Out.header], [a]⟩ a rfl ha hfuel
  refine ⟨⟨r.node, r.nodeCount, r.out ++ [Out.blank], r.visited⟩, ?_⟩
  simp only [get_result, if_true, Option.toList]
  rw [hr]

theorem numbers_of_traceInv (h : Heap) (w : Walk) (hinv : TraceInv h w)
    (hsmall : w.visited.length - 1 < 4294967296) :
    (trace_lines w.out).map Prod.fst = List.range' 1 (w.visited.length - 1) ∧
    w.nodeCount = w.visited.length - 1 := by
  obtain ⟨_, hlen, hcount, hpoint, _⟩ := hinv
  refine ⟨?_, by rw [hcount]; exact Nat.mod_eq_of_lt hsmall⟩
  apply List.ext_getElem?
  intro k
  by_cases hk : k < w.visited.length - 1
  · rw [List.getElem?_map, List.getElem?_range' 1 1 hk]
    have hpk := hpoint k hk
    have hsome : (trace_lines w.out)[k]? = some ((trace_lines w.out)[k]) :=
      List.getElem?_eq_getElem (by rw [hlen]; exact hk)
    rcases hv : w.visited[k]? with _ | x
    · rw [hv, hsome] at hpk
      cases hpk
    · rcases hd : deref h x with _ | nd
      · rw [hv, hsome] at hpk
        simp [hd] at hpk
      · rw [hv] at hpk
        simp only [Option.some_bind, hd, Option.map_some'] at hpk
        rw [hpk]
        simp only [Option.map_some', Option.some.injEq]
        rw [Nat.mod_eq_of_lt (by omega)]
        omega
  · rw [List.getElem?_eq_none (by simp only [List.length_map, hlen]; omega),
      List.getElem?_eq_none (by simp only [List.length_range']; omega)]

/-! ## The deep tree -/

theorem chain_heap_length (N : Nat) : (chain_heap N).length = N + 1 := by
  simp [chain_heap]

theorem chain_heap_deref_lt (N x : Nat) (hx : x < N) :
    deref (chain_heap N) x = some ⟨some (x + 1), none, none, Params.ctor, .RatingNode⟩ := by
  unfold deref chain_heap
  rw [List.get?_eq_getElem?, List.getElem?_append_left (by simpa using hx),
    List.getElem?_map, List.getElem?_range hx]
  rfl

theorem chain_heap_deref_last (N : Nat) :
    deref (chain_heap N) N = some (TreeNode.ctor Params.ctor (.FailedLaunchNode (dollars 0))) := by
  unfold deref chain_heap
  rw [List.get?_eq_getElem?, List.getElem?_append_right (by simp)]
  simp

theorem chain_heap_process (N x y : Nat)
    (hp : (deref (chain_heap N) x).bind TreeNode.process = some y) :
    y = x + 1 ∧ x < N := by
  rcases Nat.lt_trichotomy x N with hx | hx | hx
  · rw [chain_heap_deref_lt N x hx] at hp
    have : y = x + 1 := by
      simp [TreeNode.process, Params.ctor] at hp
      exact hp.symm
    exact ⟨this, hx⟩
  · subst hx
    rw [chain_heap_deref_last] at hp
    simp [TreeNode.process, TreeNode.ctor] at hp
  · have hnone : deref (chain_heap N) x = none := by
      unfold deref
      rw [List.get?_eq_getElem?]
      exact List.getElem?_eq_none (by rw [chain_heap_length]; omega)
    rw [hnone] at hp
    cases hp

theorem chain_heap_child (N x y : Nat) (hc : child_of (chain_heap N) x y = true) :
    y = x + 1 ∧ x < N := by
  obtain ⟨hmem, n, hd⟩ := child_of_mem _ x y hc
  have hx := deref_lt_length _ x n hd
  rw [chain_heap_length] at hx
  unfold children_at at hmem
  by_cases hlt : x < N
  · rw [chain_heap_deref_lt N x hlt] at hmem
    simp [TreeNode.children] at hmem
    exact ⟨hmem, hlt⟩
  · have hxN : x = N := by omega
    subst hxN
    rw [chain_heap_deref_last] at hmem
    simp [TreeNode.children, TreeNode.ctor] at hmem

theorem successor_chain_index (N : Nat) :
    ∀ (l : List Nat) (s : Nat), List.Chain' (fun x y => y = x + 1 ∧ x < N) l →
      l.head? = some s →
      ∀ k, k < l.length → l[k]? = some (s + k) ∧ (k + 1 < l.length → s + k < N) := by
  intro l
  induction l with
  | nil => intro s _ hh; cases hh
  | cons x rest ih =>
    intro s hchain hhead k hk
    have hxs : x = s := by simpa using hhead
    subst hxs
    cases rest with
    | nil =>
      simp only [List.length_singleton] at hk
      have hk0 : k = 0 := by omega
      subst hk0
      simp
    | cons y r =>
      rw [List.chain'_cons] at hchain
      obtain ⟨⟨hy, hxN⟩, hrest⟩ := hchain
      cases k with
      | zero => exact ⟨by simp, fun _ => by simpa using hxN⟩
      | succ k' =>
        have hk' : k' < (y :: r).length := by
          simp only [List.length_cons] at hk ⊢
          omega
        obtain ⟨h1, h2⟩ := ih y hrest rfl k' hk'
        refine ⟨?_, ?_⟩
        · rw [List.getElem?_cons_succ, h1, hy]
          congr 1
          omega
        · intro hlen
          have := h2 (by simp only [List.length_cons] at hlen ⊢; omega)
          omega

theorem deep_chain (N fuel : Nat) (hfuel : N < fuel) :
    ∃ w, get_result true (chain_heap N) fuel (some 0) = some w ∧
      TraceInv (chain_heap N) w ∧ w.visited.length = N + 1 ∧
      ∀ k, k < N + 1 → w.visited[k]? = some k := by
  obtain ⟨w, hw⟩ := get_result_terminates (chain_heap N) (fun x => N - x) 0 fuel
    (by rw [chain_heap_length]; omega)
    (fun x y hc => by
      obtain ⟨hy, hx⟩ := chain_heap_child N x y hc
      rw [chain_heap_length]; omega)
    (fun x y hc => by
      obtain ⟨hy, hx⟩ := chain_heap_child N x y hc
      show N - y < N - x
      omega)
    (by show N - 0 < fuel; omega)
  obtain ⟨hinv, hstop, hhead⟩ := traceInv_get_result _ fuel _ w hw
  have hchain : List.Chain' (fun x y => y = x + 1 ∧ x < N) w.visited :=
    List.Chain'.imp (fun x y hxy => chain_heap_process N x y hxy) hinv.2.2.2.2
  have hidx := successor_chain_index N w.visited 0 hchain hhead
  have hpos : 0 < w.visited.length := by
    rcases hv : w.visited with _ | ⟨x, rest⟩
    · rw [hv] at hhead
      cases hhead
    · simp
  have hlast : w.node = some (w.visited.length - 1) := by
    rw [hinv.1, List.getLast?_eq_getElem?, (hidx _ (by omega)).1]
    simp
  have hlen : w.visited.length = N + 1 := by
    have hge : N ≤ w.visited.length - 1 := by
      by_contra hlt
      have hlt' : w.visited.length - 1 < N := by omega
      rw [hlast] at hstop
      simp only [Option.some_bind] at hstop
      rw [chain_heap_deref_lt N _ hlt'] at hstop
      simp [TreeNode.process, Params.ctor] at hstop
    have hle : w.visited.length - 1 ≤ N := by
      by_contra hgt
      have h2 := (hidx (w.visited.length - 2) (by omega)).2 (by omega)
      omega
    omega
  refine ⟨w, hw, hinv, hlen, ?_⟩
  intro k hk
  have := (hidx k (by omega)).1
  simpa using this


/-- C16 as stated fails on a deep tree: on the branch of 4294967296
`RatingNode`s ending in a leaf the walk makes 4294967296 hops and writes as
many trace lines, but `nodeCount` is an `unsigned`, so the last line carries
the number 0 and the numbers written are not 1, 2, ..., 4294967296. -/
theorem deep_tree_trace_numbers_wrap :
    ∃ w, get_result TRACK_PATH (chain_heap 4294967296) 4294967297 (some 0) = some w ∧
      w.visited.length - 1 = 4294967296 ∧
      (trace_lines w.out).length = 4294967296 ∧
      (trace_lines w.out)[4294967295]? = some (0, TypeId.RatingNode) ∧
      (trace_lines w.out).map Prod.fst ≠ List.range' 1 (w.visited.length - 1) := by
  obtain ⟨w, hw, hinv, hlen, hvis⟩ := deep_chain 4294967296 4294967297 (by norm_num)
  have hhops : w.visited.length - 1 = 4294967296 := by omega
  have htl : (trace_lines w.out).length = 4294967296 := by rw [hinv.2.1, hhops]
  have hentry : (trace_lines w.out)[4294967295]? = some (0, TypeId.RatingNode) := by
    have h1 := hinv.2.2.2.1 4294967295 (by omega)
    rw [h1, hvis 4294967295 (by omega)]
    rw [Option.some_bind, chain_heap_deref_lt 4294967296 4294967295 (by omega)]
    rw [Option.map_some']
    have hm : (4294967295 + 1) % 4294967296 = 0 := by norm_num
    rw [hm]
    simp only [typeid]
  refine ⟨w, hw, hhops, htl, hentry, ?_⟩
  intro heq
  have h1 : ((trace_lines w.out).map Prod.fst)[4294967295]? = some 0 := by
    rw [List.getElem?_map, hentry, Option.map_some']
  rw [heq, hhops] at h1
  have h2 : (List.range' 1 4294967296)[4294967295]? = some (1 + 1 * 4294967295) :=
    List.getElem?_range' 1 1 (by omega)
  rw [h2] at h1
  have h3 := Option.some.inj h1
  omega

/-- C16 amended: on every finite tree (a heap whose child pointers all point
into the heap and lower a rank) `get_result` returns when given more fuel than
the rank of the root; the walk starts at the root, each address held is what
`process()` of the one before returned, and it ends at the pointer returned,
whose `process()` is null; the trace has one line per hop; line `k` counted
from 0 carries the number `k + 1` reduced modulo 4294967296 and the type of
the node the hop was made from; when there are fewer than 4294967296 hops the
numbers are 1, 2, ..., n and the counter ends at n.  For the tree of
`create_tree` the trace has 2 lines without market testing and 3 with it. -/
theorem trace_numbering (h : Heap) (rank : Nat → Nat) (a fuel : Nat)
    (ha : a < h.length)
    (hvalid : ∀ x y, child_of h x y = true → y < h.length)
    (hrank : ∀ x y, child_of h x y = true → rank y < rank x)
    (hfuel : rank a < fuel) :
    (∃ w, get_result TRACK_PATH h fuel (some a) = some w ∧
      w.visited.head? = some a ∧ w.visited.getLast? = w.node ∧
      List.Chain' (fun x y => (deref h x).bind TreeNode.process = some y) w.visited ∧
      (w.node.bind (deref h)).bind TreeNode.process = none ∧
      (trace_lines w.out).length = w.visited.length - 1 ∧
      (∀ k, k < w.visited.length - 1 →
        (trace_lines w.out)[k]? =
          (w.visited[k]?).bind fun x =>
            (deref h x).map fun nd => ((k + 1) % 4294967296, typeid nd)) ∧
      (w.visited.length - 1 < 4294967296 →
        (trace_lines w.out).map Prod.fst = List.range' 1 (w.visited.length - 1) ∧
        w.nodeCount = w.visited.length - 1)) ∧
    ∀ (p : Params) (f : Nat), 4 ≤ f →
      (evaluate TRACK_PATH f p).map (fun w => (trace_lines w.out, w.visited.length - 1)) =
        some (if p.uses_market_testing then
          ([(1, .ProductLaunchStrategyNode), (2, .RatingNode), (3, .LaunchOutcomeNode)], 3)
        else ([(1, .ProductLaunchStrategyNode), (2, .LaunchOutcomeNode)], 2)) := by
  refine ⟨?_, ?_⟩
  · obtain ⟨w, hw⟩ := get_result_terminates h rank a fuel ha hvalid hrank hfuel
    obtain ⟨hinv, hstop, hhead⟩ := traceInv_get_result h fuel _ w hw
    exact ⟨w, hw, hhead, hinv.1.symm, hinv.2.2.2.2, hstop, hinv.2.1, hinv.2.2.2.1,
      fun hsmall => numbers_of_traceInv h w hinv hsmall⟩
  · intro p f hf
    rw [evaluate_ge_four TRACK_PATH p f hf]
    obtain ⟨umt, hpr, sl, ml, fl⟩ := p
    cases umt <;> cases hpr <;> cases sl <;> cases ml <;> cases fl <;> decide!

theorem example_heap_child (x y : Nat)
    (hc : child_of (create_tree_body ⟨true, true, true, false, false⟩).heap x y = true) :
    y < (create_tree_body ⟨true, true, true, false, false⟩).heap.length ∧
      level y < level x := by
  obtain ⟨_, hy, hl⟩ := child_of_level _ x y hc
  rw [(create_tree_heap_facts _).1]
  exact ⟨hy, hl⟩

/-- C16 amended at one input: the heap of the tree of testing, positive
rating, successful launch, ranked by `level`, from its root at address 11 with
fuel 4. -/
theorem trace_numbering_witness :
    11 < (create_tree_body ⟨true, true, true, false, false⟩).heap.length ∧
    level 11 < 4 ∧
    ∃ w, get_result TRACK_PATH (create_tree_body ⟨true, true, true, false, false⟩).heap 4
        (some 11) = some w ∧
      (trace_lines w.out).length = w.visited.length - 1 :=
  ⟨by decide!, by decide,
    match (trace_numbering (create_tree_body ⟨true, true, true, false, false⟩).heap level 11 4
      (by decide!) (fun x y hc => (example_heap_child x y hc).1)
      (fun x y hc => (example_heap_child x y hc).2) (by decide)).1 with
    | ⟨w, hw, _, _, _, _, hlen, _⟩ => ⟨w, hw, hlen⟩⟩

end MarketingTree
